import Mathlib

/-!
Verification of the NDAS pipe-stress report extractor
(`NDAS_sample_program.py`) against its design specification.

The program is a line-oriented, fixed-column text extractor.  We embed the
relevant methods shallowly: a source line is a `List Char` (exactly the string
Python iterates over, including its trailing newline character), and each
parsing pass becomes a structurally recursive Lean function over the list of
lines.  Python string primitives (`find`, `strip`, `replace` with one-character
patterns, slicing, `in`, `isnumeric`) are modelled by the `py*` helpers below.
-/

set_option maxRecDepth 100000

namespace NDAS


/-- Characters Python's `str.strip()` removes (ASCII whitespace). -/
def isPySpace (c : Char) : Bool :=
  c = ' ' || c = '\t' || c = '\n' || c = '\r' || c = '\x0b' || c = '\x0c'

/-- `s.lstrip()`. -/
def pyStripLeft (l : List Char) : List Char := l.dropWhile isPySpace

/-- `s.rstrip()`. -/
def pyStripRight (l : List Char) : List Char :=
  (l.reverse.dropWhile isPySpace).reverse

/-- `s.strip()`. -/
def pyStrip (l : List Char) : List Char := pyStripRight (pyStripLeft l)

/-- `s.replace(c, "")` for a one-character pattern `c` (the only replacement
shapes the source uses, besides the character-for-character
`replace("\x01", " ")` which is `mapChar`). -/
def removeAll (c : Char) (l : List Char) : List Char := l.filter (fun d => d ≠ c)

/-- `s.replace(a, b)` for one-character `a` and `b`. -/
def mapChar (a b : Char) (l : List Char) : List Char :=
  l.map (fun d => if d = a then b else d)

/-- `s[a:b]` for nonnegative indices (Python clamps both ends). -/
def pySlice (a b : Nat) (l : List Char) : List Char := (l.drop a).take (b - a)

/-- Clamp a possibly negative Python index to an actual position. -/
def pyIdx (n : Nat) (i : Int) : Nat :=
  if i < 0 then ((n : Int) + i).toNat else min i.toNat n

/-- `s[a:b]` with full Python index semantics (negative indices count from
the end; everything is clamped into range). -/
def pySliceI (a b : Int) (l : List Char) : List Char :=
  let n := l.length
  (l.drop (pyIdx n a)).take (pyIdx n b - pyIdx n a)

/-- First index at which `sub` occurs in `l`, if any. -/
def findIdx? (sub : List Char) : List Char → Option Nat
  | [] => if sub.isPrefixOf ([] : List Char) then some 0 else none
  | c :: t => if sub.isPrefixOf (c :: t) then some 0 else (findIdx? sub t).map (· + 1)

/-- `s.find(sub)`: first index of `sub`, `-1` when absent. -/
def pyFind (sub l : List Char) : Int :=
  match findIdx? sub l with
  | some n => (n : Int)
  | none => -1

/-- `sub in s`. -/
def pyContains (sub l : List Char) : Bool := (findIdx? sub l).isSome

/-- `s.isnumeric()` restricted to ASCII digits, which is all the source data
contains: true iff nonempty and all characters are digits. -/
def isNumericStr (l : List Char) : Bool := !l.isEmpty && l.all Char.isDigit

/-- Shorthand: the character list of a string literal. -/
def strL (s : String) : List Char := s.data

/-!
## Load-case scanning (`parse_load_cases`, source lines 388-431)

The method walks `raw_data_list`; a counter `no_loadcase_line_cnt` of
consecutive non-matching lines is incremented only while `loading_loadcases`
is set (i.e. only after the first declaration), and the loop breaks when the
counter exceeds `max_blank_line_cnt`.  Besides the resulting list we also
return how many lines the loop actually consumed, so that early termination
is observable.
-/

/-- `"LDCASE="`. -/
def ldcaseKeyword : List Char := strL "LDCASE="

/-- Name extraction on a matching line:
`line[line.find("LDCASE=")+7 : line.find("(")]` (source lines 416-417).
Note both `find`s run on the whole line and the second may return `-1`. -/
def extractLoadCaseName (line : List Char) : List Char :=
  pySliceI (pyFind ldcaseKeyword line + 7) (pyFind (strL "(") line) line

/-- The scanning loop of `parse_load_cases` (source lines 406-428).
State: `loading` = `loading_loadcases`, `cnt` = `no_loadcase_line_cnt`.
Returns the load-case list together with the number of lines consumed. -/
def loadCasesGo (maxBlank : Int) : List (List Char) → Bool → Int → List (List Char) × Nat
  | [], _, _ => ([], 0)
  | line :: rest, loading, cnt =>
    if cnt > maxBlank then ([], 0)
    else if pyContains ldcaseKeyword line then
      let p := loadCasesGo maxBlank rest true 0
      (extractLoadCaseName line :: p.1, p.2 + 1)
    else if loading then
      let p := loadCasesGo maxBlank rest loading (cnt + 1)
      (p.1, p.2 + 1)
    else
      let p := loadCasesGo maxBlank rest loading cnt
      (p.1, p.2 + 1)

/-- `parse_load_cases`: initial state `loading_loadcases = False`,
`no_loadcase_line_cnt = 0`. -/
def parseLoadCases (maxBlank : Int) (lines : List (List Char)) :
    List (List Char) × Nat :=
  loadCasesGo maxBlank lines false 0

/-!
## Node connectivity (`get_node_connectivities`, source lines 458-509)

The method slices `raw_data_list` from `stress_analysis_line_number` and
walks it with `line_cnt`.  A line containing `" FROM "` records
`node_connectivity_start_line` (initially the sentinel `10**100`); when
`line_cnt == node_connectivity_start_line + 4` the flag `parse_data` is set,
and from then on any line whose columns 25-115 are numeric (after deleting
spaces, `*` and `.`) and whose successor line is likewise numeric contributes
the directed edge of the two lines' column-0-8 ids.  The
`"PIPING STRESS SUMMARY CHECK AND COVER SHEET"` banner clears `parse_data`.
-/

/-- Sentinel initial value of `node_connectivity_start_line` (`10**100`). -/
def connSentinel : Nat := 10 ^ 100

/-- Header marker `" FROM "`. -/
def nodeConnectivityKeyword : List Char := strL " FROM "

/-- End-of-section banner. -/
def connectivityEndBanner : List Char :=
  strL "PIPING STRESS SUMMARY CHECK AND COVER SHEET"

/-- `line[25:115].replace(" ","").replace("*","").replace(".","").isnumeric()`. -/
def connNumericCheck (line : List Char) : Bool :=
  isNumericStr (removeAll '.' (removeAll '*' (removeAll ' ' (pySlice 25 115 line))))

/-- The scanning loop of `get_node_connectivities` (source lines 480-506).
`i` is `line_cnt`, `parseData` is `parse_data`, `startLine` is
`node_connectivity_start_line`; the lookahead `node_stress_list[line_cnt+1]`
is the head of `rest`. -/
def connGo : List (List Char) → Nat → Bool → Nat → List (List Char × List Char)
  | [], _, _, _ => []
  | line :: rest, i, parseData, startLine =>
    let startLine := if pyContains nodeConnectivityKeyword line then i else startLine
    let parseData := if i = startLine + 4 then true else parseData
    let hasNumericNext :=
      match rest with
      | next :: _ => connNumericCheck next
      | [] => false
    let edges :=
      if parseData && connNumericCheck line && hasNumericNext then
        match rest with
        | next :: _ => [(pyStrip (pySlice 0 8 line), pyStrip (pySlice 0 8 next))]
        | [] => []
      else []
    let parseData2 :=
      if parseData && pyContains connectivityEndBanner line then false else parseData
    edges ++ connGo rest (i + 1) parseData2 startLine

/-- Connectivity edges extracted from the slice of `raw_data_list` that
starts at the stress-analysis section. -/
def nodeConnectivityList (stressSection : List (List Char)) :
    List (List Char × List Char) :=
  connGo stressSection 0 false connSentinel

/-- `get_node_connectivities` as a whole: the method reads
`self.stress_analysis_line_number`, an attribute that is assigned only when
the `"ALL     STRESS ANALYSIS"` marker was seen (source line 211) — when the
marker never occurred the attribute does not exist and the access raises
`AttributeError`, modelled as the `Except.error` case. -/
def getNodeConnectivities (stressLine : Option Nat) (rawData : List (List Char)) :
    Except (List Char) (List (List Char × List Char)) :=
  match stressLine with
  | none => .error (strL "AttributeError")
  | some k => .ok (nodeConnectivityList (rawData.drop k))

/-- Expected edges of a run of adjacent numeric rows: one edge per adjacent
pair of rows, in order of discovery. -/
def adjacentEdges : List (List Char) → List (List Char × List Char)
  | r1 :: r2 :: rest =>
    (pyStrip (pySlice 0 8 r1), pyStrip (pySlice 0 8 r2)) :: adjacentEdges (r2 :: rest)
  | _ => []

/-- A well-formed numeric data row for the synthetic fixtures: numeric in
columns 25-115, no header marker, no end banner. -/
def connRowOk (l : List Char) : Bool :=
  connNumericCheck l && !pyContains nodeConnectivityKeyword l &&
    !pyContains connectivityEndBanner l

/-- An empty source line (just the newline Python keeps on each line). -/
def blankLine : List Char := strL "\n"

/-!
## Section boundaries (`parse_raw_data`, source lines 207-221) and the pipe
stress summary (`parse_pipe_stress_summary`, source lines 1264-1326)
-/

/-- `"ALL     STRESS ANALYSIS"`. -/
def stressAnalysisKeyword : List Char := strL "ALL     STRESS ANALYSIS"

/-- The pipe-stress-summary header line marker. -/
def pipeStressSummaryKeyword : List Char :=
  strL "    CONDITION      LEVEL     END    ELEMENT  STRESS(   PSI) (   PSI)  ALLOWABLE"

/-- `" APPROVED BY "`. -/
def pipeStressSummaryEndKeyword : List Char := strL " APPROVED BY "

/-- The three boundary attributes recorded by `parse_raw_data`:
`stress_analysis_line_number` (conditionally assigned, so `none` models a
never-created attribute), `pipe_stress_summary_start_line_number` and
`pipe_stress_summary_end_line_number` (both initialised to `None`). -/
structure SectionBounds where
  stressAnalysis : Option Nat
  summaryStart : Option Nat
  summaryEnd : Option Nat
deriving DecidableEq

/-- One iteration of the boundary-recording part of `parse_raw_data`'s loop
(source lines 207-221): each marker hit overwrites the stored line number. -/
def scanSectionsStep (b : SectionBounds) (i : Nat) (line : List Char) : SectionBounds :=
  let b1 := if pyContains stressAnalysisKeyword line then
    { b with stressAnalysis := some i } else b
  let b2 := if pyContains pipeStressSummaryKeyword line then
    { b1 with summaryStart := some i } else b1
  if b2.summaryStart ≠ none ∧ pyContains pipeStressSummaryEndKeyword line then
    { b2 with summaryEnd := some i } else b2

/-- The boundary-recording scan over the whole file. -/
def scanSectionsGo (i : Nat) (b : SectionBounds) : List (List Char) → SectionBounds
  | [] => b
  | l :: rest => scanSectionsGo (i + 1) (scanSectionsStep b i l) rest

/-- Boundaries after `parse_raw_data` has processed `lines`. -/
def scanSections (lines : List (List Char)) : SectionBounds :=
  scanSectionsGo 0 ⟨none, none, none⟩ lines

/-- Python's `float()` restricted to plain decimal literals (optional sign,
digits, optional single decimal point), the only numeric shape occurring in
the summary's ratio column; anything else fails, modelling the `ValueError`
branch. -/
def pyFloat? (s : List Char) : Option ℚ :=
  let st : Int × List Char :=
    match s with
    | '+' :: r => (1, r)
    | '-' :: r => (-1, r)
    | _ => (1, s)
  let ip := st.2.takeWhile (fun c => c ≠ '.')
  let rest := st.2.drop ip.length
  let dv : List Char → Nat := fun l =>
    l.foldl (fun acc c => acc * 10 + (c.toNat - ('0').toNat)) 0
  match rest with
  | [] =>
    if !ip.isEmpty && ip.all Char.isDigit then
      some ((st.1 : ℚ) * (dv ip : ℚ))
    else none
  | '.' :: fp =>
    if (!ip.isEmpty || !fp.isEmpty) && ip.all Char.isDigit && fp.all Char.isDigit then
      some ((st.1 : ℚ) * ((dv ip : ℚ) + (dv fp : ℚ) / (10 : ℚ) ^ fp.length))
    else none
  | _ => none

/-- The ratio-column string of one cleaned summary line:
`line[72:79].strip().replace("*","") if len(line) >= 79 else ""`
(source line 1299). -/
def ratioOfLine (line : List Char) : List Char :=
  if 79 ≤ line.length then removeAll '*' (pyStrip (pySlice 72 79 line)) else []

/-- The ratio-collecting loop (source lines 1297-1310): a failed conversion
is skipped (`except ValueError: pass`). -/
def stressRatiosOf : List (List Char) → List ℚ
  | [] => []
  | l :: rest =>
    match pyFloat? (ratioOfLine l) with
    | some v => v :: stressRatiosOf rest
    | none => stressRatiosOf rest

/-- Line cleaning (source line 1289):
`i.replace("\n","").replace("\x01"," ")`. -/
def cleanSummaryLine (l : List Char) : List Char :=
  mapChar '\x01' ' ' (removeAll '\n' l)

/-- Python's `max` on a (guaranteed nonempty) list. -/
def maxOfList : List ℚ → ℚ
  | [] => 0
  | x :: rest => rest.foldl max x

/-- Digits of a natural number. -/
def natDigits (n : Nat) : List Char := Nat.toDigits 10 n

/-- `f"{q:.3f}"` for the exact-thousandths values this program formats
(rounding of values not representable in thousandths is half-up here, which
agrees with the program on every value it can produce from three-decimal
ratio columns). -/
def formatFixed3 (q : ℚ) : List Char :=
  let n : Int := Int.floor (q * 1000 + 1 / 2)
  let m := n.natAbs
  let sign : List Char := if n < 0 then [ '-' ] else []
  let fracDigits := natDigits (m % 1000)
  sign ++ natDigits (m / 1000) ++ '.'
    :: (List.replicate (3 - fracDigits.length) '0' ++ fracDigits)

/-- The no-ratios message (source line 1315). -/
def msgNoRatios : List Char :=
  strL "The pipe stress summary is shown below. No valid stress ratios were found in the expected columns (72-79)."

/-- The all-within-allowable message (source line 1321). -/
def msgAllWithin : List Char :=
  strL "The pipe stress summary is shown below, with all actual pipe stresses meeting code allowable stresses."

/-- The prefix of the exceeded message (source lines 1325-1326). -/
def msgExceededPrefix : List Char :=
  strL "The pipe stress summary is shown below, with code allowable stresses potentially being exceeded. The maximum stress ratio found is "

/-- Classification of the extracted ratio list (source lines 1313-1326). -/
def summaryText (ratios : List ℚ) : List Char :=
  if ratios.isEmpty then msgNoRatios
  else if maxOfList ratios < 1 then msgAllWithin
  else msgExceededPrefix ++ formatFixed3 (maxOfList ratios) ++ [ '.' ]

/-- Result record of `parse_pipe_stress_summary`. -/
structure SummaryResult where
  summaryList : List (List Char)
  text : List Char
  ratios : List ℚ
deriving DecidableEq

/-- `parse_pipe_stress_summary` (source lines 1264-1326): when either
boundary is unset the method returns early with explicit empty/error values;
otherwise it slices `raw_data_list[max(0, start-16) : end+2]`, cleans the
lines, collects the ratios and classifies them. -/
def parsePipeStressSummary (startLine endLine : Option Nat)
    (rawData : List (List Char)) : SummaryResult :=
  match startLine, endLine with
  | some s, some e =>
    let startIndex := s - 16
    let raw := (rawData.drop startIndex).take (e + 2 - startIndex)
    let cleaned := raw.map cleanSummaryLine
    let ratios := stressRatiosOf cleaned
    ⟨cleaned, summaryText ratios, ratios⟩
  | _, _ =>
    ⟨[ strL "Error: Pipe stress summary not found in output file." ],
      strL "Error: Pipe stress summary not found.", []⟩

/-- A 79-character line whose ratio column (72-79) is not numeric. -/
def badRatioLine : List Char := List.replicate 72 ' ' ++ strL "NOTANUM"

/-!
## Comment-parameter extraction (`parse_raw_data`, source lines 223-258)

A line containing `***/` is split at the first `=`; the stripped key is
looked up in three static catalogs and the value is stored as a scalar
(overwriting), appended to a list, or concatenated to a text blob.
-/

/-- `coversheet_parameter_list` (source lines 88-103): single-value keys. -/
def coversheetParameterList : List (List Char) :=
  List.map strL
    [ "ANALYSIS NUMBER", "ANALYSIS TITLE", "STATION",
      "UNIT NUMBER", "DISCIPLINE", "SAFETY CLASS",
      "SYSTEM CODE", "STRUCTURE", "ANALYSIS REVISION",
      "PACKAGE NUMBER", "PACKAGE REVISION", "AFFECTED DOCUMENT NUMBER",
      "AFFECTED DOCUMENT REVISION",
      "DOES ANALYSIS CONTAIN SAFEGUARDS INFORMATION(YER OR NO)?",
      "DOES ANALYSIS CONTAIN UNVERIFIED ASSUMPTIONS(YER OR NO)?",
      "UNVERIFIED ASSUMPTION TRACKING ORDER",
      "SUPERSEDED DOCUMENT",
      "PREPARER NAME", "PREPARER SIGNATURE", "DATE PREPARED",
      "REVIEWER NAME", "REVIEWER SIGNATURE", "DATE REVIEWED",
      "METHOD OF REVIEW", "TYPE OF REVIEW", "EXTERNAL APPROVER NAME",
      "EXTERNAL APPROVER SIGNATURE", "EXTERNAL APPROVAL DATE",
      "COMPANY REVIEWER NAME", "COMPANY REVIEWER SIGNATURE", "COMPANY REVIEW DATE",
      "INDEPENDENT THIRD PARTY REVIEW REQUIRED(YER OR NO)",
      "COMPANY APPROVER NAME", "COMPANY APPROVAL SIGNATURE", "COMPANY APPROVAL DATE" ]

/-- `coversheet_set_list` (source line 106): repeatable keys. -/
def coversheetSetList : List (List Char) :=
  List.map strL [ "INPUT DOC", "FROM/TO", "COMPONENT" ]

/-- `long_text_parameter_list` (source line 109): multi-line keys. -/
def longTextParameterList : List (List Char) :=
  List.map strL [ "DESCRIPTION OF CHANGE", "DESCRIPTION OF REVISION" ]

/-- Values held by `coversheet_parameter_dic`: a scalar string, a list of
strings, or a concatenated text blob. -/
inductive PVal where
  | s (v : List Char)
  | lst (vs : List (List Char))
  | txt (v : List Char)
deriving DecidableEq

/-- `d[k] = v` with Python dict semantics (replace in place or append). -/
def dictSet {α : Type} (k : List Char) (v : α) :
    List (List Char × α) → List (List Char × α)
  | [] => [ (k, v) ]
  | (k', v') :: rest => if k' = k then (k, v) :: rest else (k', v') :: dictSet k v rest

/-- `d.get(k)`. -/
def dictGet {α : Type} (k : List Char) : List (List Char × α) → Option α
  | [] => none
  | (k', v') :: rest => if k' = k then some v' else dictGet k rest

/-- The parsed key of a comment line (source lines 227-235):
`line[line.find("***/")+4 : line.find("=")].strip()`, with Python slice
semantics when `find` returns `-1`. -/
def commentKeyOf (line : List Char) : List Char :=
  pyStrip (pySliceI (pyFind (strL "***/") line + 4) (pyFind (strL "=") line) line)

/-- The raw value of a comment line (source lines 231-233):
`line[line.find("=")+1 : len(line)]`. -/
def commentValueOf (line : List Char) : List Char :=
  pySliceI (pyFind (strL "=") line + 1) (line.length : Int) line

/-- Source lines 237-240: a single-value key overwrites its entry with the
stripped value. -/
def applySingle (dic : List (List Char × PVal)) (key value : List Char) :
    List (List Char × PVal) :=
  if key ∈ coversheetParameterList then dictSet key (.s (pyStrip value)) dic
  else dic

/-- Source lines 242-249: a repeatable key appends the stripped value to its
list, creating the list on first sight.  The `some _` fallback is
unreachable because the catalogs are disjoint (a repeatable key only ever
holds a list); it leaves the map unchanged. -/
def applySet (dic : List (List Char × PVal)) (key value : List Char) :
    List (List Char × PVal) :=
  if key ∈ coversheetSetList then
    match dictGet key dic with
    | none => dictSet key (.lst [ pyStrip value ]) dic
    | some (.lst vs) => dictSet key (.lst (vs ++ [ pyStrip value ])) dic
    | some _ => dic
  else dic

/-- Source lines 251-258: a multi-line key concatenates the newline-free
value, starting from the empty string.  The `some _` fallback is unreachable
for the same disjointness reason. -/
def applyLong (dic : List (List Char × PVal)) (key value : List Char) :
    List (List Char × PVal) :=
  if key ∈ longTextParameterList then
    match dictGet key dic with
    | none => dictSet key (.txt (removeAll '\n' value)) dic
    | some (.txt t) => dictSet key (.txt (t ++ removeAll '\n' value)) dic
    | some _ => dic
  else dic

/-- The three sequential catalog updates of one loop iteration. -/
def coversheetApply (dic : List (List Char × PVal)) (key value : List Char) :
    List (List Char × PVal) :=
  applyLong (applySet (applySingle dic key value) key value) key value

/-- The comment-parameter part of one `parse_raw_data` loop iteration
(source lines 225-258): guarded by `"***/" in line`. -/
def coversheetStep (dic : List (List Char × PVal)) (line : List Char) :
    List (List Char × PVal) :=
  cond (pyContains (strL "***/") line)
    (coversheetApply dic (commentKeyOf line) (commentValueOf line)) dic

/-- The whole comment-parameter pass over a file. -/
def parseCoversheetParameters (lines : List (List Char)) : List (List Char × PVal) :=
  lines.foldl coversheetStep []

/-- A well-formed comment-parameter line: `***/KEY = VALUE` plus the newline
Python leaves on the line. -/
def commentLine (K V : List Char) : List Char :=
  strL "***/" ++ K ++ strL " = " ++ V ++ [ '\n' ]

/-- Sanity conditions on a key: nonempty, free of `=`, and strip-invariant
(every catalog key satisfies them — see `catalog_keys_ok`). -/
def keyOk (k : List Char) : Bool :=
  !k.isEmpty && k.all (fun c => c ≠ '=') &&
    (pyStripLeft k == k) && (pyStripRight k == k)

/-!
## Geometry-card parsing (`parse_raw_data`, source lines 260-385)

Inside the `INPUT CARD IMAGES` section, each non-comment line with a
non-blank endpoint field (columns 13-19) creates one or two
`[node_id, {param: value}]` entries; `OD=`/`THI=` keyword values from the
same line are then attached to the most recent entry (single-start state) or
the two most recent entries (paired state).  The third `elif` (source lines
364-378) would copy a missing value from the third-most-recent entry.
-/

/-- One geometry segment endpoint entry: `[node_id, {param: value}]`. -/
abbrev GeoEntry : Type := List Char × List (List Char × List Char)

/-- Entries of `segment_all_endpoints_list`: it starts as `[""]` (a bare
string), accumulates two-element endpoint lists, and index 0 may later be
overwritten by a bare id string (source line 292).  Only (in)equality of its
last two elements is ever observed. -/
inductive EPH where
  | str (s : List Char)
  | pair (a b : List Char)
deriving DecidableEq

/-- Parser state of the geometry portion of `parse_raw_data`'s loop:
`parsing_raw_geometry`, `first_single_node_in_this_line`,
`segment_all_endpoints_list` and `raw_segment_parameter_list`. -/
structure GeoState where
  parsing : Bool
  firstSingle : Option Bool
  history : List EPH
  entries : List GeoEntry

/-- Initial state (source lines 143-150). -/
def geoInit : GeoState := ⟨false, none, [ .str [] ], []⟩

/-- `"INPUT CARD IMAGES"`. -/
def inputCardStartKeyword : List Char := strL "INPUT CARD IMAGES"

/-- `"         .  +"`. -/
def inputCardEndKeyword : List Char := strL "         .  +"

/-- `["TEA","ACE","END"]`. -/
def endGeometryKeywordList : List (List Char) :=
  [ strL "TEA", strL "ACE", strL "END" ]

/-- `"***"`. -/
def commentKey : List Char := strL "***"

/-- `nozzle_analysis_keyword_list` (source line 123). -/
def nozzleKeywordList : List (List Char) := [ strL "OD=", strL "THI=" ]

/-- The last element of the endpoint history (`[-2]` after the new append);
the list is never empty, so the default is unreachable. -/
def lastEPH (l : List EPH) : EPH := l.getLastD (.str [])

/-- Endpoint-entry creation for one line (source lines 274-325). -/
def geoEndpoints (st : GeoState) (line : List Char) : GeoState :=
  if (removeAll ' ' (pySlice 13 19 line)) ≠ [] ∧
      pyContains commentKey line = false then
    let a := pyStrip (pySlice 13 16 line)
    let b := pyStrip (pySlice 16 19 line)
    if EPH.pair a b ≠ lastEPH st.history then
      if ((if a = [] then 0 else 1) + (if b = [] then 0 else 1) = 1) ∧
          st.firstSingle = none then
        { st with
          history := (st.history ++ [ EPH.pair a b ]).set 0 (EPH.str b),
          entries := st.entries ++ [ (b, []) ],
          firstSingle := some true }
      else if (if a = [] then 0 else 1) + (if b = [] then 0 else 1) = 1 then
        { st with
          history := st.history ++ [ EPH.pair a b ],
          entries := st.entries ++ [ ((st.entries.getLastD ([], [])).1, []), (b, []) ],
          firstSingle := some false }
      else
        { st with
          history := st.history ++ [ EPH.pair a b ],
          entries := st.entries ++ [ (a, []), (b, []) ],
          firstSingle := some false }
    else { st with history := st.history ++ [ EPH.pair a b ] }
  else st

/-- Keyword-value extraction (source lines 333-344): the value runs from just
after the keyword to the next comma, or to fixed column 92 when there is no
comma. -/
def kwValueOf (line kw : List Char) : List Char :=
  let start := (pyFind kw line).toNat + kw.length
  let stop :=
    match findIdx? [ ',' ] (line.drop start) with
    | none => 92
    | some e => e + start
  pyStrip (removeAll ' ' (pySlice start stop line))

/-- Update the last entry's parameter map. -/
def setLastEntry (es : List GeoEntry) (k v : List Char) : List GeoEntry :=
  es.set (es.length - 1)
    ((es.getLastD ([], [])).1, dictSet k v (es.getLastD ([], [])).2)

/-- Update the last two entries' parameter maps (`[-2]` then `[-1]`,
source lines 355-358). -/
def setLastTwoEntries (es : List GeoEntry) (k v : List Char) : List GeoEntry :=
  let e2 := es.getD (es.length - 2) ([], [])
  setLastEntry (es.set (es.length - 2) (e2.1, dictSet k v e2.2)) k v

/-- The inheritance body of the third `elif` (source lines 369-378): copy the
value from the third-most-recent entry into the last two; an `IndexError`
(fewer than three entries) or `KeyError` (key missing there) is caught and
leaves the entries unchanged. -/
def inheritFromThird (es : List GeoEntry) (k : List Char) : List GeoEntry :=
  if 3 ≤ es.length then
    match dictGet k (es.getD (es.length - 3) ([], [])).2 with
    | some v => setLastTwoEntries es k v
    | none => es
  else es

/-- Parameter attachment for one keyword (source lines 329-378): the
`if/elif/elif` chain on `first_single_node_in_this_line`. -/
def geoKeywordAssign (fs : Option Bool) (es : List GeoEntry)
    (line kw : List Char) : List GeoEntry :=
  if pyContains kw line = true ∧ pyContains commentKey line = false then
    if fs = some true then setLastEntry es kw.dropLast (kwValueOf line kw)
    else if fs = some false then
      setLastTwoEntries es kw.dropLast (kwValueOf line kw)
    else if pyContains commentKey line = false ∧ fs = some false ∧
        dictGet kw.dropLast (es.getLastD ([], [])).2 = none then
      inheritFromThird es kw.dropLast
    else es
  else es

/-- Identical to `geoKeywordAssign` except that the third `elif` — the
inheritance fallback — is removed.  Comparing the two shows that branch is
dead code. -/
def geoKeywordAssignNoInherit (fs : Option Bool) (es : List GeoEntry)
    (line kw : List Char) : List GeoEntry :=
  if pyContains kw line = true ∧ pyContains commentKey line = false then
    if fs = some true then setLastEntry es kw.dropLast (kwValueOf line kw)
    else if fs = some false then
      setLastTwoEntries es kw.dropLast (kwValueOf line kw)
    else es
  else es

/-- The geometry portion of one `parse_raw_data` loop iteration (source
lines 260-385): section-end detection, endpoint entries, keyword loop over
`["OD=","THI="]`, and the section-start trigger last. -/
def geoStep (st : GeoState) (line : List Char) : GeoState :=
  let st1 :=
    if st.parsing then
      if pyContains inputCardEndKeyword line = true ∨
          pySlice 10 13 line ∈ endGeometryKeywordList then
        { st with parsing := false }
      else
        let st2 := geoEndpoints st line
        { st2 with
          entries := nozzleKeywordList.foldl
            (fun es kw => geoKeywordAssign st2.firstSingle es line kw) st2.entries }
    else st
  if pyContains inputCardStartKeyword line then { st1 with parsing := true } else st1

/-- `geoStep` with the inheritance branch removed. -/
def geoStepNoInherit (st : GeoState) (line : List Char) : GeoState :=
  let st1 :=
    if st.parsing then
      if pyContains inputCardEndKeyword line = true ∨
          pySlice 10 13 line ∈ endGeometryKeywordList then
        { st with parsing := false }
      else
        let st2 := geoEndpoints st line
        { st2 with
          entries := nozzleKeywordList.foldl
            (fun es kw => geoKeywordAssignNoInherit st2.firstSingle es line kw)
            st2.entries }
    else st
  if pyContains inputCardStartKeyword line then { st1 with parsing := true } else st1

/-- The geometry pass over a whole file. -/
def geoRun (lines : List (List Char)) : GeoState := lines.foldl geoStep geoInit

/-- The same pass without the inheritance branch. -/
def geoRunNoInherit (lines : List (List Char)) : GeoState :=
  lines.foldl geoStepNoInherit geoInit

/-- The section-start line of the geometry counterexample fixture. -/
def geoFixtureStart : List Char := strL "INPUT CARD IMAGES\n"

/-- A two-endpoint card `10 → 20` carrying `OD=1.0`. -/
def geoFixtureCard1 : List Char := strL "             10 20    OD=1.0,\n"

/-- A two-endpoint card `30 → 40` carrying `OD=2.0`. -/
def geoFixtureCard2 : List Char := strL "             30 40    OD=2.0,\n"

/-!
## Coordinate extraction (`parse_node_coordinates`, source lines 512-596)
and plot-pass edge resolution (`get_stress_plot` lines 676-690,
`get_THOR_plot` lines 1052-1064)
-/

/-- One coordinate row `(node_id, x, y, z)` as text. -/
abbrev CoordRow : Type := List Char × List Char × List Char × List Char

/-- State of the `parse_node_coordinates` loop: `parse_data`,
`current_load_case`, `geometry_dic` and `all_coordinate_id_list`. -/
structure NCState where
  parseData : Bool
  currentLoadCase : Option (List Char)
  geo : List (List Char × List CoordRow)
  allCoordinateIds : List (List Char)

/-- `geometry_dic[k].append(row)`. -/
def dictAppendRow (k : List Char) (row : CoordRow)
    (d : List (List Char × List CoordRow)) : List (List Char × List CoordRow) :=
  dictSet k ((dictGet k d).getD [] ++ [ row ]) d

/-- Initial state: `geometry_dic = {key: [] for key in load_case_list}`. -/
def ncInit (loadCases : List (List Char)) : NCState :=
  ⟨false, none, loadCases.foldl (fun d k => dictSet k [] d) [], []⟩

/-- Source lines 534-538: a `NODE DATA` marker carrying a known load case in
columns 15-24 selects that load case and enables row parsing. -/
def ncNodeData (loadCases : List (List Char)) (st : NCState)
    (line : List Char) : NCState :=
  if pyContains (strL "NODE DATA") line = true ∧
      pyStrip (pySlice 15 24 line) ∈ loadCases then
    { st with currentLoadCase := some (pyStrip (pySlice 15 24 line)),
              parseData := true }
  else st

/-- Source lines 541-543: an `ELEMENT DATA` marker ends the block. -/
def ncElementData (st : NCState) (line : List Char) : NCState :=
  if st.parseData = true ∧ pyContains (strL "ELEMENT DATA") line = true then
    { st with parseData := false }
  else st

/-- Source lines 547-573: a qualifying row (columns 34-61 numeric after
deleting `-`, `.` and spaces) is stored — under the column-0-8 id plus
`" M"` when only that suffixed id occurs in the connectivity array
(membership in the first components, the second components, and anywhere,
respectively), and otherwise under the column-0-6 id, which is also added
(space-free) to `all_coordinate_id_list`. -/
def ncCoordRow (conn : List (List Char × List Char)) (st : NCState)
    (line : List Char) : NCState :=
  if st.parseData = true ∧
      isNumericStr (removeAll ' '
        (removeAll '.' (removeAll '-' (pySlice 34 61 line)))) = true ∧
      st.currentLoadCase ≠ none then
    if pyStrip (pySlice 0 8 line) ∉ conn.map Prod.fst ∧
        pyStrip (pySlice 0 8 line) ∉ conn.map Prod.snd ∧
        ((pyStrip (pySlice 0 8 line) ++ strL " M") ∈ conn.map Prod.fst ∨
          (pyStrip (pySlice 0 8 line) ++ strL " M") ∈ conn.map Prod.snd) then
      { st with
        geo := dictAppendRow (st.currentLoadCase.getD [])
          (pyStrip (pySlice 0 8 line) ++ strL " M",
            pySlice 33 39 line, pySlice 44 50 line, pySlice 55 61 line) st.geo }
    else
      { st with
        geo := dictAppendRow (st.currentLoadCase.getD [])
          (pyStrip (pySlice 0 6 line),
            pySlice 33 39 line, pySlice 44 50 line, pySlice 55 61 line) st.geo,
        allCoordinateIds :=
          st.allCoordinateIds ++ [ removeAll ' ' (pyStrip (pySlice 0 6 line)) ] }
  else st

/-- One `parse_node_coordinates` loop iteration (source lines 530-573).
`conn` is `node_connectivity_array` as the list of (from, to) pairs. -/
def ncStep (loadCases : List (List Char)) (conn : List (List Char × List Char))
    (st : NCState) (line : List Char) : NCState :=
  ncCoordRow conn (ncElementData (ncNodeData loadCases st line) line) line

/-- The whole coordinate pass (up to the final array conversion, which only
repackages the accumulated rows). -/
def parseNodeCoordinates (loadCases : List (List Char))
    (conn : List (List Char × List Char)) (lines : List (List Char)) : NCState :=
  lines.foldl (ncStep loadCases conn) (ncInit loadCases)

/-- First index of an id in a column, `np.where(col == x)[0][0]`-style
(`none` models the empty match whose `[0]` raises `IndexError`). -/
def firstIndexOf : List (List Char) → List Char → Option Nat
  | [], _ => none
  | y :: rest, x => if y = x then some 0 else (firstIndexOf rest x).map (· + 1)

/-- Per-edge resolution of `get_stress_plot`'s segment loop (source lines
676-690), abstracted to the id lookups that can fail: an endpoint absent
from the coordinate table leaves an empty `origin`/`destination`, whose
later `origin[0]` indexing raises `IndexError`; an endpoint absent from
`sustained_stresses` makes `np.where(...)[0][0]` raise `IndexError` at
once.  No `try` surrounds the loop, so the first failure terminates the
pass: the whole run is an `Except.error`. -/
def stressPlotRun (coordIds stressIds : List (List Char)) :
    List (List Char × List Char) → Except (List Char) (List (Nat × Nat))
  | [] => .ok []
  | (a, b) :: rest =>
    if firstIndexOf coordIds a = none ∨ firstIndexOf coordIds b = none then
      .error (strL "IndexError")
    else
      match firstIndexOf stressIds (pyStrip a), firstIndexOf stressIds (pyStrip b) with
      | some i, some j =>
        match stressPlotRun coordIds stressIds rest with
        | .ok l => .ok ((i, j) :: l)
        | .error e => .error e
      | _, _ => .error (strL "IndexError")

/-- Per-edge resolution of `get_THOR_plot`'s segment loop (source lines
1052-1064): the two dictionary lookups sit in a
`try/except KeyError: continue`, so an unresolved endpoint skips the edge
and processing continues. -/
def thorRun {α : Type} (dic : List (List Char × α)) :
    List (List Char × List Char) → List (List Char × List Char)
  | [] => []
  | (a, b) :: rest =>
    match dictGet a dic, dictGet b dic with
    | some _, some _ => (a, b) :: thorRun dic rest
    | _, _ => thorRun dic rest

/-!
## Tube-mesh generation (`get_stress_plot`, source lines 722-790)

For each edge: `circ_point_count = 20`, `len_point_count = 10`; the segment
axis is the normalised difference of the endpoints; the reference offset is
the Gram-Schmidt rest of a seed vector against the axis, normalised and
divided by 24; `np.linspace(0, 2*np.pi, 20)` (endpoint included) supplies
the circumferential angles; `scipy.spatial.transform.Rotation.from_rotvec`
rotates the offset about the axis (Rodrigues rotation); stations are
`np.linspace(origin, destination, 10)` and every station adds the full ring
of offsets.
-/

/-- A 3-vector of reals (a row of the numpy arrays involved). -/
@[ext] structure Vec3 where
  x : ℝ
  y : ℝ
  z : ℝ

/-- Componentwise sum. -/
def vadd (u v : Vec3) : Vec3 := ⟨u.x + v.x, u.y + v.y, u.z + v.z⟩

/-- Componentwise difference. -/
def vsub (u v : Vec3) : Vec3 := ⟨u.x - v.x, u.y - v.y, u.z - v.z⟩

/-- Scalar multiple. -/
def smul (c : ℝ) (v : Vec3) : Vec3 := ⟨c * v.x, c * v.y, c * v.z⟩

/-- Dot product. -/
def dot (u v : Vec3) : ℝ := u.x * v.x + u.y * v.y + u.z * v.z

/-- Cross product. -/
def cross (u v : Vec3) : Vec3 :=
  ⟨u.y * v.z - u.z * v.y, u.z * v.x - u.x * v.z, u.x * v.y - u.y * v.x⟩

/-- Euclidean norm (`np.linalg.norm`). -/
noncomputable def vnorm (v : Vec3) : ℝ := Real.sqrt (dot v v)

/-- The zero vector. -/
def vzero : Vec3 := ⟨0, 0, 0⟩

/-- `np.linspace(a, b, n)` with its default inclusive endpoint:
`a + i*(b-a)/(n-1)` for `i = 0, …, n-1`. -/
noncomputable def linspace (a b : ℝ) (n : Nat) : List ℝ :=
  (List.range n).map (fun (i : Nat) => a + (i : ℝ) * (b - a) / ((n : ℝ) - 1))

/-- `np.linspace` on 3-vectors (componentwise, as numpy broadcasts). -/
noncomputable def linspace3 (u v : Vec3) (n : Nat) : List Vec3 :=
  (List.range n).map (fun (i : Nat) =>
    ⟨u.x + (i : ℝ) * (v.x - u.x) / ((n : ℝ) - 1),
      u.y + (i : ℝ) * (v.y - u.y) / ((n : ℝ) - 1),
      u.z + (i : ℝ) * (v.z - u.z) / ((n : ℝ) - 1)⟩)

/-- `circ_point_count` (source line 723). -/
def circPointCount : Nat := 20

/-- `len_point_count` (source line 724). -/
def lenPointCount : Nat := 10

/-- `rotation_radians = np.linspace(0, 2*np.pi, circ_point_count)`
(source line 741). -/
noncomputable def rotationRadians : List ℝ := linspace 0 (2 * Real.pi) circPointCount

/-- Axis-angle rotation of `v` by angle `θ` about the unit vector `axis`
(Rodrigues formula), the effect of
`R.from_rotvec(θ * axis).apply(v)` for `θ ≥ 0` (source lines 748-754). -/
noncomputable def rodrigues (θ : ℝ) (axis v : Vec3) : Vec3 :=
  vadd (vadd (smul (Real.cos θ) v) (smul (Real.sin θ) (cross axis v)))
    (smul ((1 - Real.cos θ) * dot axis v) axis)

/-- `v / np.linalg.norm(v)`. -/
noncomputable def unitVec (v : Vec3) : Vec3 := smul (1 / vnorm v) v

/-- `random_vec - random_vec.dot(axis) * axis` (source line 734). -/
def gramSchmidt (seed axis : Vec3) : Vec3 :=
  vsub seed (smul (dot seed axis) axis)

/-- `random_normal_vec / np.linalg.norm(random_normal_vec) / 24`
(source line 737): the tube radius is `1/24`. -/
noncomputable def tubeNormalVec (seed axis : Vec3) : Vec3 :=
  smul (1 / 24) (smul (1 / vnorm (gramSchmidt seed axis)) (gramSchmidt seed axis))

/-- The ring of circumferential offset vectors (source lines 745-754). -/
noncomputable def ringVectors (seed axis : Vec3) : List Vec3 :=
  rotationRadians.map (fun θ => rodrigues θ axis (tubeNormalVec seed axis))

/-- The tube's surface-vertex grid: stations along the segment, each offset
by the full ring (source lines 773-784). -/
noncomputable def tubeGrid (origin destination seed : Vec3) : List (List Vec3) :=
  (linspace3 origin destination lenPointCount).map
    (fun p => (ringVectors seed (unitVec (vsub destination origin))).map (vadd p))

/-- A concrete numeric data row whose column-0-8 id is `"10"`: columns 25-115
hold digits, so the row passes `connNumericCheck` (the row is long enough that
the slice does not pick up the trailing newline). -/
def fixRow10 : List Char :=
  strL "10" ++ List.replicate 23 ' ' ++ List.replicate 91 '1' ++ [ '\n' ]

/-- A concrete numeric data row whose column-0-8 id is `"20"`. -/
def fixRow20 : List Char :=
  strL "20" ++ List.replicate 23 ' ' ++ List.replicate 91 '1' ++ [ '\n' ]

/-- A qualifying coordinate row whose column-0-8 id `"1234567 "` has seven
significant characters. -/
def ncFixtureLine : List Char :=
  strL "1234567 " ++ List.replicate 25 ' '
    ++ strL "111.111111111111111111111111" ++ [ '\n' ]

/-- Helper: the scan returns exactly one name per `LDCASE=` line among the
lines it consumed, in encounter order. -/
theorem loadCasesGo_filter_map (maxBlank : Int) :
    ∀ (lines : List (List Char)) (loading : Bool) (cnt : Int),
      (loadCasesGo maxBlank lines loading cnt).1 =
        ((lines.take (loadCasesGo maxBlank lines loading cnt).2).filter
          (fun l => pyContains ldcaseKeyword l)).map extractLoadCaseName
  | [], _, _ => by simp [loadCasesGo]
  | line :: rest, loading, cnt => by
    by_cases h1 : cnt > maxBlank
    · simp [loadCasesGo, h1]
    · by_cases h2 : pyContains ldcaseKeyword line = true
      · simpa [loadCasesGo, h1, h2] using
          loadCasesGo_filter_map maxBlank rest true 0
      · by_cases h3 : loading = true
        · simpa [loadCasesGo, h1, h2, h3] using
            loadCasesGo_filter_map maxBlank rest loading (cnt + 1)
        · simpa [loadCasesGo, h1, h2, h3] using
            loadCasesGo_filter_map maxBlank rest loading cnt

/-- Helper: before the header is seen (state `false`/sentinel), lines without
the header marker contribute nothing and change nothing. -/
theorem connGo_preheader (pre : List (List Char)) :
    ∀ (rest : List (List Char)) (i : Nat),
      (∀ l ∈ pre, pyContains nodeConnectivityKeyword l = false) →
      i + pre.length ≤ connSentinel + 4 →
      connGo (pre ++ rest) i false connSentinel
        = connGo rest (i + pre.length) false connSentinel := by
  induction pre with
  | nil => intro rest i _ _; simp
  | cons p pre ih =>
    intro rest i hpre hb
    have hp : pyContains nodeConnectivityKeyword p = false :=
      hpre p (List.mem_cons_self p pre)
    have hne : i ≠ connSentinel + 4 := by
      simp only [List.length_cons] at hb; omega
    have ih' := ih rest (i + 1)
      (fun x hx => hpre x (List.mem_cons_of_mem p hx))
      (by simp only [List.length_cons] at hb; omega)
    have harith : i + (p :: pre).length = i + 1 + pre.length := by
      simp only [List.length_cons]; omega
    rw [List.cons_append, harith, ← ih']
    simp [connGo, hp, hne]

/-- Helper: the header line records the start line and nothing else. -/
theorem connGo_header (hdr : List Char) (rest : List (List Char)) (k : Nat)
    (hhdr : pyContains nodeConnectivityKeyword hdr = true) :
    connGo (hdr :: rest) k false connSentinel = connGo rest (k + 1) false k := by
  have hne : k ≠ k + 4 := by omega
  simp [connGo, hhdr, hne]

/-- Helper: a run of blank lines below the `+4` threshold is skipped with the
flag still off. -/
theorem connGo_blanks_before (m : Nat) :
    ∀ (rest : List (List Char)) (j k : Nat),
      j + m ≤ k + 4 →
      connGo (List.replicate m blankLine ++ rest) j false k
        = connGo rest (j + m) false k := by
  induction m with
  | zero => intro rest j k _; simp
  | succ m ih =>
    intro rest j k hb
    have hne : j ≠ k + 4 := by omega
    have ih' := ih rest (j + 1) k (by omega)
    have hfrom : pyContains nodeConnectivityKeyword blankLine = false := by decide
    have harith : j + (m + 1) = j + 1 + m := by omega
    rw [List.replicate_succ, List.cons_append, harith, ← ih']
    simp [connGo, hfrom, hne]

/-- Helper: blank lines with the flag already on produce no edges and leave
the flag on. -/
theorem connGo_blanks_on (m : Nat) :
    ∀ (rest : List (List Char)) (j k : Nat),
      connGo (List.replicate m blankLine ++ rest) j true k
        = connGo rest (j + m) true k := by
  induction m with
  | zero => intro rest j k; simp
  | succ m ih =>
    intro rest j k
    have ih' := ih rest (j + 1) k
    have hnum : connNumericCheck blankLine = false := by decide
    have hban : pyContains connectivityEndBanner blankLine = false := by decide
    have hfrom : pyContains nodeConnectivityKeyword blankLine = false := by decide
    have harith : j + (m + 1) = j + 1 + m := by omega
    rw [List.replicate_succ, List.cons_append, harith, ← ih']
    simp [connGo, hnum, hban, hfrom]

/-- Helper: a run of qualifying rows scanned with the flag on (or switching
on at its first row) yields exactly the adjacent-pair edges. -/
theorem connGo_rows (rows : List (List Char)) :
    ∀ (j k : Nat) (p : Bool),
      (p = true ∨ j = k + 4) →
      (∀ l ∈ rows, connRowOk l = true) →
      connGo rows j p k = adjacentEdges rows := by
  induction rows with
  | nil => intro j k p _ _; simp [connGo, adjacentEdges]
  | cons r rest ih =>
    intro j k p hp hok
    have hr : connRowOk r = true := hok r (List.mem_cons_self r rest)
    simp only [connRowOk, Bool.and_eq_true, Bool.not_eq_true'] at hr
    obtain ⟨⟨hnum, hfrom⟩, hban⟩ := hr
    have hpar : (if j = k + 4 then true else p) = true := by
      rcases hp with h | h
      · simp [h]
      · simp [h]
    have ih' := ih (j + 1) k true (Or.inl rfl)
      (fun x hx => hok x (List.mem_cons_of_mem r hx))
    cases rest with
    | nil => simp [connGo, hfrom, hpar, hban, adjacentEdges]
    | cons next rest' =>
      have hr2 := hok next (by simp)
      simp only [connRowOk, Bool.and_eq_true, Bool.not_eq_true'] at hr2
      obtain ⟨⟨hnext, hfrom2⟩, hban2⟩ := hr2
      rw [show adjacentEdges (r :: next :: rest')
          = (pyStrip (pySlice 0 8 r), pyStrip (pySlice 0 8 next))
            :: adjacentEdges (next :: rest') from rfl, ← ih']
      simp [connGo, hfrom, hpar, hban, hnum, hnext, hfrom2, hban2]

/-- Helper: a blank line sitting exactly at index `start_line + 4` switches
`parse_data` on but contributes no edge. -/
theorem connGo_blank_at_flip (rest : List (List Char)) (k : Nat) :
    connGo (blankLine :: rest) (k + 4) false k = connGo rest (k + 4 + 1) true k := by
  have hfrom : pyContains nodeConnectivityKeyword blankLine = false := by decide
  have hnum : connNumericCheck blankLine = false := by decide
  have hban : pyContains connectivityEndBanner blankLine = false := by decide
  simp [connGo, hfrom, hnum, hban]

/-- Helper: a pair of numeric rows that sits entirely at indices `< k + 4`
(except possibly its second row landing exactly on `k + 4`) yields no edge:
the flag is off on the first row, and the second row has no successor. -/
theorem connGo_pair_skip (r0 r1 : List Char) (k d : Nat) (hd3 : d ≤ 3)
    (hf0 : pyContains nodeConnectivityKeyword r0 = false)
    (hf1 : pyContains nodeConnectivityKeyword r1 = false)
    (hb0 : pyContains connectivityEndBanner r0 = false) :
    connGo [ r0, r1 ] (k + d) false k = [] := by
  have h1 : ¬ (k + d = k + 4) := by omega
  simp [connGo, hf0, hf1, hb0, h1]

/-- Claim C1, counterexample.  The claim says numeric-pair rows starting at
relative line `k + 5` (header at `k`) produce no edges.  In the code
`parse_data` is switched on when `line_cnt == start + 4` and then stays on,
so a fixture with the header at line 0, four blank lines, and a numeric pair
at lines 5 and 6 extracts the edge `("10", "20")` — not the empty list. -/
theorem C1_pair_at_header_plus_five_counterexample :
    nodeConnectivityList
        (strL " FROM \n" :: (List.replicate 4 blankLine ++ [ fixRow10, fixRow20 ]))
        = [ (strL "10", strL "20") ] ∧
      nodeConnectivityList
        (strL " FROM \n" :: (List.replicate 4 blankLine ++ [ fixRow10, fixRow20 ]))
        ≠ [] :=
  ⟨by decide, by decide⟩

/-- Claim C1, amended.  Structural parsing is enabled exactly 4 lines after
the header-marker line and then stays enabled: for a fixture whose numeric
rows start at relative offset `d` after the header at `k = pre.length`,
rows starting at `k + 4` *or later* (`4 ≤ d`) produce exactly the expected
adjacent-pair edges in order of discovery, while a numeric pair whose rows
start earlier than `k + 4` (`d ≤ 3`, which includes the pair at `k + 3`)
produces no edges. -/
theorem C1_connectivity_fixed_offset (pre : List (List Char)) (hdr : List Char)
    (rows : List (List Char)) (r0 r1 : List Char) (d : Nat)
    (hpre : ∀ l ∈ pre, pyContains nodeConnectivityKeyword l = false)
    (hsmall : pre.length ≤ connSentinel)
    (hhdr : pyContains nodeConnectivityKeyword hdr = true)
    (hrows : ∀ l ∈ rows, connRowOk l = true)
    (hr0 : connRowOk r0 = true) (hr1 : connRowOk r1 = true)
    (hd1 : 1 ≤ d) :
    (4 ≤ d →
      nodeConnectivityList
          (pre ++ hdr :: (List.replicate (d - 1) blankLine ++ rows))
        = adjacentEdges rows) ∧
    (d ≤ 3 →
      nodeConnectivityList
          (pre ++ hdr :: (List.replicate (d - 1) blankLine ++ [ r0, r1 ]))
        = []) := by
  have hk : 0 + pre.length ≤ connSentinel + 4 := by omega
  constructor
  · intro hd4
    rcases Nat.lt_or_ge d 5 with hd5 | hd5
    · have hd4' : d = 4 := by omega
      subst hd4'
      unfold nodeConnectivityList
      rw [connGo_preheader pre _ 0 hpre hk, Nat.zero_add,
        connGo_header hdr _ pre.length hhdr,
        show (4 - 1 : Nat) = 3 from rfl,
        connGo_blanks_before 3 rows (pre.length + 1) pre.length (by omega)]
      exact connGo_rows rows (pre.length + 1 + 3) pre.length false
        (Or.inr (by omega)) hrows
    · unfold nodeConnectivityList
      rw [connGo_preheader pre _ 0 hpre hk, Nat.zero_add,
        connGo_header hdr _ pre.length hhdr]
      have hsplit : List.replicate (d - 1) blankLine
          = List.replicate 3 blankLine
              ++ blankLine :: List.replicate (d - 5) blankLine := by
        rw [← List.replicate_succ, ← List.replicate_add]
        congr 1
        omega
      rw [hsplit, List.append_assoc,
        connGo_blanks_before 3 _ (pre.length + 1) pre.length (by omega),
        show pre.length + 1 + 3 = pre.length + 4 from by omega,
        List.cons_append, connGo_blank_at_flip, connGo_blanks_on]
      exact connGo_rows rows _ pre.length true (Or.inl rfl) hrows
  · intro hd3
    unfold nodeConnectivityList
    rw [connGo_preheader pre _ 0 hpre hk, Nat.zero_add,
      connGo_header hdr _ pre.length hhdr,
      connGo_blanks_before (d - 1) _ (pre.length + 1) pre.length (by omega),
      show pre.length + 1 + (d - 1) = pre.length + d from by omega]
    have h0 := hr0
    have h1 := hr1
    simp only [connRowOk, Bool.and_eq_true, Bool.not_eq_true'] at h0 h1
    exact connGo_pair_skip r0 r1 pre.length d hd3 h0.1.2 h1.1.2 h0.2

/-- Claim C1, witness: the header followed by three blank lines and a numeric
pair at offset 4 yields exactly the edge `("10", "20")`. -/
theorem C1_connectivity_fixed_offset_witness :
    nodeConnectivityList
        ([] ++ strL " FROM \n"
          :: (List.replicate (4 - 1) blankLine ++ [ fixRow10, fixRow20 ]))
      = adjacentEdges [ fixRow10, fixRow20 ] :=
  (C1_connectivity_fixed_offset [] (strL " FROM \n") [ fixRow10, fixRow20 ]
    fixRow10 fixRow20 4 (by simp) (Nat.zero_le _) (by decide) (by decide)
    (by decide) (by decide) (by decide)).1 (by decide)

/-- Helper: `findIdx?` hits at index 0 when the pattern is a prefix. -/
theorem findIdx?_of_prefix (sub l : List Char) (hne : l ≠ [])
    (hpre : sub.isPrefixOf l = true) : findIdx? sub l = some 0 := by
  match l, hne with
  | c :: t, _ => simp [findIdx?, hpre]

/-- Helper: `find` of the `***/` marker on a line starting with it is 0. -/
theorem pyFind_marker_zero (rest : List Char) :
    pyFind (strL "***/") (strL "***/" ++ rest) = 0 := by
  have hP : strL "***/" = '*' :: '*' :: '*' :: '/' :: [] := rfl
  have hne : strL "***/" ++ rest ≠ [] := by simp [hP]
  have hpre : (strL "***/").isPrefixOf (strL "***/" ++ rest) = true := by
    rw [List.isPrefixOf_iff_prefix]
    exact List.prefix_append _ _
  rw [pyFind, findIdx?_of_prefix _ _ hne hpre]
  rfl

/-- Helper: first occurrence of a single character. -/
theorem findIdx?_char_first (c : Char) (l1 l2 : List Char) (h : c ∉ l1) :
    findIdx? [ c ] (l1 ++ c :: l2) = some l1.length := by
  induction l1 with
  | nil =>
    have hpre : [ c ].isPrefixOf (c :: l2) = true := by
      simp [List.isPrefixOf]
    simp [findIdx?, hpre]
  | cons a l1 ih =>
    simp only [List.mem_cons, not_or] at h
    obtain ⟨hca, hmem⟩ := h
    have hpre : [ c ].isPrefixOf (a :: (l1 ++ c :: l2)) = false := by
      simp [List.isPrefixOf, beq_iff_eq, hca]
    have ih' := ih hmem
    simp [findIdx?, List.cons_append, hpre, ih']

/-- Helper: `line.find("=")` on `l1 ++ "=" ++ l2` with no `=` in `l1`. -/
theorem pyFind_eq_sign (l1 l2 : List Char) (h : '=' ∉ l1) :
    pyFind (strL "=") (l1 ++ '=' :: l2) = (l1.length : Int) := by
  have hE : strL "=" = [ '=' ] := rfl
  rw [hE, pyFind, findIdx?_char_first '=' l1 l2 h]

/-- Helper: a Python slice with in-range nonnegative indices is the plain
slice. -/
theorem pySliceI_coe (a b : Nat) (l : List Char) (hab : a ≤ b)
    (hb : b ≤ l.length) : pySliceI (a : Int) (b : Int) l = pySlice a b l := by
  have ha' : ¬ ((a : Int) < 0) := by omega
  have hb' : ¬ ((b : Int) < 0) := by omega
  simp only [pySliceI, pySlice, pyIdx, ha', hb', if_false, Int.toNat_natCast]
  rw [min_eq_left (le_trans hab hb), min_eq_left hb]

/-- Helper: dropping a leading whitespace character before `lstrip`. -/
theorem pyStripLeft_cons_space (c : Char) (l : List Char)
    (h : isPySpace c = true) : pyStripLeft (c :: l) = pyStripLeft l := by
  simp [pyStripLeft, List.dropWhile_cons, h]

/-- Helper: a trailing whitespace character is removed by `rstrip`. -/
theorem pyStripRight_append_space (c : Char) (l : List Char)
    (h : isPySpace c = true) : pyStripRight (l ++ [ c ]) = pyStripRight l := by
  simp [pyStripRight, List.reverse_append, List.dropWhile_cons, h]

/-- Helper: `strip` ignores a leading space. -/
theorem pyStrip_cons_space (l : List Char) : pyStrip (' ' :: l) = pyStrip l := by
  simp [pyStrip, pyStripLeft_cons_space ' ' l (by decide)]

/-- Helper: `strip` ignores a trailing newline. -/
theorem pyStrip_append_newline (l : List Char) :
    pyStrip (l ++ [ '\n' ]) = pyStrip l := by
  unfold pyStrip pyStripLeft
  rw [List.dropWhile_append]
  by_cases hcase : (List.dropWhile isPySpace l).isEmpty = true
  · rw [if_pos hcase]
    have h1 : List.dropWhile isPySpace [ '\n' ] = [] := by decide
    have h2 : List.dropWhile isPySpace l = [] := by
      cases hdw : List.dropWhile isPySpace l with
      | nil => rfl
      | cons x xs => rw [hdw] at hcase; simp at hcase
    rw [h1, h2]
  · rw [if_neg hcase]
    exact pyStripRight_append_space '\n' _ (by decide)

/-- Helper: `lstrip` of a left-strip-invariant nonempty prefix. -/
theorem pyStripLeft_invariant_append (K X : List Char)
    (h : pyStripLeft K = K) (hne : K ≠ []) :
    pyStripLeft (K ++ X) = K ++ X := by
  have hKe : K.isEmpty = false := by
    cases K with
    | nil => exact absurd rfl hne
    | cons a l => rfl
  unfold pyStripLeft at h ⊢
  rw [List.dropWhile_append, h]
  simp [hKe]

/-- Helper: the stored key of a well-formed comment line strips back to the
key itself. -/
theorem pyStrip_key_space (K : List Char) (hsl : pyStripLeft K = K)
    (hsr : pyStripRight K = K) (hne : K ≠ []) :
    pyStrip (K ++ [ ' ' ]) = K := by
  unfold pyStrip
  rw [pyStripLeft_invariant_append K [ ' ' ] hsl hne,
    pyStripRight_append_space ' ' K (by decide), hsr]

/-- Helper: the length of a well-formed comment line. -/
theorem commentLine_length (K V : List Char) :
    (commentLine K V).length = K.length + V.length + 8 := by
  simp [commentLine, strL]
  omega

/-- Helper: the marker is found at position 0 of a comment line. -/
theorem commentLine_find_marker (K V : List Char) :
    pyFind (strL "***/") (commentLine K V) = 0 := by
  have hshape : commentLine K V
      = strL "***/" ++ (K ++ (strL " = " ++ (V ++ [ '\n' ]))) := by
    simp [commentLine, List.append_assoc]
  rw [hshape, pyFind_marker_zero]

/-- Helper: a comment line contains the marker. -/
theorem commentLine_contains_marker (K V : List Char) :
    pyContains (strL "***/") (commentLine K V) = true := by
  have hP : strL "***/" = '*' :: '*' :: '*' :: '/' :: [] := rfl
  have hshape : commentLine K V
      = strL "***/" ++ (K ++ (strL " = " ++ (V ++ [ '\n' ]))) := by
    simp [commentLine, List.append_assoc]
  have hne : strL "***/" ++ (K ++ (strL " = " ++ (V ++ [ '\n' ]))) ≠ [] := by
    simp [hP]
  have hpre : (strL "***/").isPrefixOf
      (strL "***/" ++ (K ++ (strL " = " ++ (V ++ [ '\n' ])))) = true := by
    rw [List.isPrefixOf_iff_prefix]
    exact List.prefix_append _ _
  rw [pyContains, hshape, findIdx?_of_prefix _ _ hne hpre]
  rfl

/-- Helper: the first `=` of a comment line sits right after the key. -/
theorem commentLine_find_eq (K V : List Char) (heq : '=' ∉ K) :
    pyFind (strL "=") (commentLine K V)
      = ((4 + (K.length + 1) : Nat) : Int) := by
  have hP : strL "***/" = '*' :: '*' :: '*' :: '/' :: [] := rfl
  have hshape : commentLine K V
      = (strL "***/" ++ K ++ [ ' ' ]) ++ '=' :: (' ' :: (V ++ [ '\n' ])) := by
    simp [commentLine, List.append_assoc]
    rfl
  have hmemP : '=' ∉ strL "***/" := by decide
  have hmemSp : '=' ∉ [ ' ' ] := by decide
  have hmem : '=' ∉ strL "***/" ++ K ++ [ ' ' ] := by
    simp only [List.mem_append, not_or]
    exact ⟨⟨hmemP, heq⟩, hmemSp⟩
  rw [hshape, pyFind_eq_sign _ _ hmem]
  simp [hP]
  omega

/-- Helper: the key slice of a comment line is the key plus one space. -/
theorem commentLine_name_slice (K V : List Char) :
    pySlice 4 (4 + (K.length + 1)) (commentLine K V) = K ++ [ ' ' ] := by
  have hshape : commentLine K V
      = strL "***/" ++ ((K ++ [ ' ' ]) ++ ('=' :: (' ' :: (V ++ [ '\n' ])))) := by
    simp [commentLine, List.append_assoc]
    rfl
  rw [hshape]
  show (((K ++ [ ' ' ]) ++ ('=' :: (' ' :: (V ++ [ '\n' ])))).take
    (4 + (K.length + 1) - 4)) = K ++ [ ' ' ]
  rw [show 4 + (K.length + 1) - 4 = K.length + 1 from by omega,
    List.take_append_eq_append_take,
    List.take_of_length_le (by simp),
    show K.length + 1 - (K ++ [ ' ' ]).length = 0 from by simp]
  simp

/-- Helper: the value slice of a comment line is everything after the `=`. -/
theorem commentLine_value_slice (K V : List Char) :
    pySlice (4 + (K.length + 1) + 1) (commentLine K V).length (commentLine K V)
      = ' ' :: (V ++ [ '\n' ]) := by
  have hshape : commentLine K V
      = (strL "***/" ++ K ++ [ ' ', '=' ]) ++ (' ' :: (V ++ [ '\n' ])) := by
    simp [commentLine, List.append_assoc]
    rfl
  have hlen : 4 + (K.length + 1) + 1 = (strL "***/" ++ K ++ [ ' ', '=' ]).length := by
    simp [strL]
    omega
  rw [pySlice, hshape, hlen, List.drop_left]
  apply List.take_of_length_le
  have h1 : ((strL "***/" ++ K ++ [ ' ', '=' ]) ++ ' ' :: (V ++ [ '\n' ])).length
      = K.length + V.length + 8 := by
    simp [strL]
    omega
  simp [h1, strL]
  omega

/-- Helper: dot-product symmetry. -/
theorem dot_comm (u v : Vec3) : dot u v = dot v u := by
  simp [dot]
  ring

/-- Helper: dot product of a difference. -/
theorem dot_vsub_left (u w a : Vec3) : dot (vsub u w) a = dot u a - dot w a := by
  simp [dot, vsub]
  ring

/-- Helper: dot product of a scalar multiple. -/
theorem dot_smul_left (c : ℝ) (v a : Vec3) : dot (smul c v) a = c * dot v a := by
  simp [dot, smul]
  ring

/-- Helper: squared norm of a scalar multiple. -/
theorem dot_smul_self (c : ℝ) (v : Vec3) :
    dot (smul c v) (smul c v) = c ^ 2 * dot v v := by
  simp [dot, smul]
  ring

/-- Helper: a vector is orthogonal to its cross product. -/
theorem dot_cross_self (a v : Vec3) : dot v (cross a v) = 0 := by
  simp [dot, cross]
  ring

/-- Helper: Lagrange identity for the squared norm of a cross product. -/
theorem cross_normSq (a v : Vec3) :
    dot (cross a v) (cross a v) = dot a a * dot v v - dot a v ^ 2 := by
  simp [dot, cross]
  ring

/-- Helper: squared norms are nonnegative. -/
theorem dot_self_nonneg (v : Vec3) : 0 ≤ dot v v := by
  simp only [dot]
  nlinarith [mul_self_nonneg v.x, mul_self_nonneg v.y, mul_self_nonneg v.z]

/-- Helper: the squared norm of a nonzero vector is positive. -/
theorem dot_self_pos (v : Vec3) (h : v ≠ vzero) : 0 < dot v v := by
  rcases v with ⟨a, b, c⟩
  have h' : a ≠ 0 ∨ b ≠ 0 ∨ c ≠ 0 := by
    by_contra hc
    push_neg at hc
    exact h (by simp [vzero, hc.1, hc.2.1, hc.2.2])
  simp only [dot]
  rcases h' with h1 | h1 | h1
  · nlinarith [mul_self_pos.mpr h1, mul_self_nonneg b, mul_self_nonneg c]
  · nlinarith [mul_self_pos.mpr h1, mul_self_nonneg a, mul_self_nonneg c]
  · nlinarith [mul_self_pos.mpr h1, mul_self_nonneg a, mul_self_nonneg b]

/-- Helper: the norm of a nonzero vector is positive. -/
theorem vnorm_pos (v : Vec3) (h : v ≠ vzero) : 0 < vnorm v :=
  Real.sqrt_pos.mpr (dot_self_pos v h)

/-- Helper: norm of a scalar multiple. -/
theorem vnorm_smul (c : ℝ) (v : Vec3) : vnorm (smul c v) = |c| * vnorm v := by
  unfold vnorm
  rw [dot_smul_self, Real.sqrt_mul (sq_nonneg c), Real.sqrt_sq_eq_abs]

/-- Helper: the normalised axis is a unit vector. -/
theorem dot_unitVec_self (v : Vec3) (h : v ≠ vzero) :
    dot (unitVec v) (unitVec v) = 1 := by
  have hpos := dot_self_pos v h
  have hsq : vnorm v ^ 2 = dot v v := Real.sq_sqrt (le_of_lt hpos)
  unfold unitVec
  rw [dot_smul_self, div_pow, one_pow, hsq, one_div_mul_cancel (ne_of_gt hpos)]

/-- Helper: Gram-Schmidt output is orthogonal to a unit axis. -/
theorem dot_gramSchmidt_axis (seed axis : Vec3) (h : dot axis axis = 1) :
    dot (gramSchmidt seed axis) axis = 0 := by
  unfold gramSchmidt
  rw [dot_vsub_left, dot_smul_left, h, mul_one, sub_self]

/-- Helper: the reference offset is orthogonal to a unit axis. -/
theorem dot_tubeNormalVec_axis (seed axis : Vec3) (h : dot axis axis = 1) :
    dot (tubeNormalVec seed axis) axis = 0 := by
  unfold tubeNormalVec
  rw [dot_smul_left, dot_smul_left, dot_gramSchmidt_axis seed axis h,
    mul_zero, mul_zero]

/-- Helper: the reference offset has norm `1/24` (the tube radius). -/
theorem vnorm_tubeNormalVec (seed axis : Vec3)
    (h : gramSchmidt seed axis ≠ vzero) :
    vnorm (tubeNormalVec seed axis) = 1 / 24 := by
  have hpos := vnorm_pos _ h
  unfold tubeNormalVec
  rw [vnorm_smul, vnorm_smul,
    abs_of_nonneg (by norm_num : (0:ℝ) ≤ 1 / 24),
    abs_of_nonneg (le_of_lt (div_pos one_pos hpos)),
    one_div_mul_cancel (ne_of_gt hpos), mul_one]

/-- Helper: squared norm of a two-term combination. -/
theorem normSq_add_smul (c s : ℝ) (v w : Vec3) :
    dot (vadd (smul c v) (smul s w)) (vadd (smul c v) (smul s w))
      = c ^ 2 * dot v v + 2 * c * s * dot v w + s ^ 2 * dot w w := by
  simp [dot, vadd, smul]
  ring

/-- Helper: the axis-angle rotation preserves the norm of a vector
orthogonal to its unit axis. -/
theorem vnorm_rodrigues (θ : ℝ) (axis v : Vec3) (haxis : dot axis axis = 1)
    (hperp : dot axis v = 0) : vnorm (rodrigues θ axis v) = vnorm v := by
  unfold rodrigues
  rw [hperp, mul_zero,
    show smul 0 axis = vzero from by simp [smul, vzero],
    show vadd (vadd (smul (Real.cos θ) v) (smul (Real.sin θ) (cross axis v))) vzero
      = vadd (smul (Real.cos θ) v) (smul (Real.sin θ) (cross axis v)) from by
        simp [vadd, vzero]]
  unfold vnorm
  rw [normSq_add_smul, dot_cross_self, cross_normSq, haxis, hperp]
  rw [show Real.cos θ ^ 2 * dot v v + 2 * Real.cos θ * Real.sin θ * 0
      + Real.sin θ ^ 2 * (1 * dot v v - 0 ^ 2) = dot v v from by
    linear_combination (dot v v) * Real.sin_sq_add_cos_sq θ]

/-- Helper: every ring vector has norm `1/24`. -/
theorem ringVectors_norm (seed axis : Vec3) (haxis : dot axis axis = 1)
    (hgs : gramSchmidt seed axis ≠ vzero) :
    ∀ w ∈ ringVectors seed axis, vnorm w = 1 / 24 := by
  intro w hw
  rcases List.mem_map.mp hw with ⟨θ, hθ, rfl⟩
  rw [vnorm_rodrigues θ axis _ haxis
    (by rw [dot_comm]; exact dot_tubeNormalVec_axis seed axis haxis)]
  exact vnorm_tubeNormalVec seed axis hgs

/-- Helper: every generated angle lies in the closed interval `[0, 2π]`. -/
theorem rotationRadians_bounds :
    ∀ θ ∈ rotationRadians, 0 ≤ θ ∧ θ ≤ 2 * Real.pi := by
  intro θ hθ
  unfold rotationRadians linspace circPointCount at hθ
  rcases List.mem_map.mp hθ with ⟨i, hi, rfl⟩
  rw [List.mem_range] at hi
  have hi19 : (i : ℝ) ≤ 19 := by exact_mod_cast Nat.lt_succ_iff.mp hi
  have hpi := Real.pi_pos
  constructor
  · rw [show ((20 : ℕ) : ℝ) - 1 = 19 from by norm_num, zero_add, sub_zero]
    positivity
  · rw [show ((20 : ℕ) : ℝ) - 1 = 19 from by norm_num, zero_add, sub_zero,
      div_le_iff₀ (by norm_num : (0:ℝ) < 19)]
    nlinarith [hi19, hpi]

/-- Helper: the inclusive `linspace` endpoint `2π` is among the angles. -/
theorem two_pi_mem_rotationRadians : (2 * Real.pi) ∈ rotationRadians := by
  unfold rotationRadians linspace circPointCount
  refine List.mem_map.mpr ⟨19, by decide, ?_⟩
  rw [show (((19 : ℕ)) : ℝ) = 19 from by norm_num,
    show ((20 : ℕ) : ℝ) - 1 = 19 from by norm_num, zero_add, sub_zero]
  field_simp

/-- Helper: rotating by `2π` is rotating by `0`. -/
theorem rodrigues_two_pi (axis v : Vec3) :
    rodrigues (2 * Real.pi) axis v = rodrigues 0 axis v := by
  unfold rodrigues
  rw [Real.cos_two_pi, Real.sin_two_pi, Real.cos_zero, Real.sin_zero]

/-- Helper: the grid has one row per station. -/
theorem tubeGrid_length (o d s : Vec3) :
    (tubeGrid o d s).length = lenPointCount := by
  unfold tubeGrid linspace3
  rw [List.length_map, List.length_map, List.length_range]

/-- Helper: each grid row has one vertex per circumferential angle. -/
theorem tubeGrid_ring_length (o d s : Vec3) :
    ∀ ring ∈ tubeGrid o d s, ring.length = circPointCount := by
  intro ring hring
  unfold tubeGrid at hring
  rcases List.mem_map.mp hring with ⟨p, hp, rfl⟩
  unfold ringVectors rotationRadians linspace
  rw [List.length_map, List.length_map, List.length_map, List.length_range]

/-- Claim C6, counterexample.  The claim says the circumferential angles lie
in the half-open interval `[0, 2π)` and no angle equals `2π`.  But the code
uses `np.linspace(0, 2*np.pi, 20)` with its default inclusive endpoint, so
`2π` itself is among the generated angles (its ring vector coincides with
the angle-0 vector, duplicating that circumferential position). -/
theorem C6_angles_include_two_pi_counterexample :
    (2 * Real.pi) ∈ rotationRadians ∧
      ¬ (∀ θ ∈ rotationRadians, θ ≠ 2 * Real.pi) :=
  ⟨two_pi_mem_rotationRadians,
    fun hall => hall _ two_pi_mem_rotationRadians rfl⟩

/-- Claim C6, amended.  The mesh builder generates its fixed count of
circumferential angles in the *closed* interval `[0, 2π]` — the endpoint
`2π` is included, so the angle-`2π` offset duplicates the angle-`0` offset;
for a segment with nonzero direction and a seed not parallel to it, the
builder produces exactly a `lenPointCount × circPointCount`
(stations × circumference) grid of surface vertices, and every
circumferential offset vector has Euclidean norm equal to the fixed tube
radius `1/24`. -/
theorem C6_tube_mesh_geometry (origin destination seed : Vec3)
    (hseg : vsub destination origin ≠ vzero)
    (hgs : gramSchmidt seed (unitVec (vsub destination origin)) ≠ vzero) :
    (∀ θ ∈ rotationRadians, 0 ≤ θ ∧ θ ≤ 2 * Real.pi) ∧
    (2 * Real.pi) ∈ rotationRadians ∧
    (tubeGrid origin destination seed).length = lenPointCount ∧
    (∀ ring ∈ tubeGrid origin destination seed, ring.length = circPointCount) ∧
    (∀ w ∈ ringVectors seed (unitVec (vsub destination origin)),
      vnorm w = 1 / 24) ∧
    rodrigues (2 * Real.pi) (unitVec (vsub destination origin))
        (tubeNormalVec seed (unitVec (vsub destination origin)))
      = rodrigues 0 (unitVec (vsub destination origin))
        (tubeNormalVec seed (unitVec (vsub destination origin))) :=
  ⟨rotationRadians_bounds, two_pi_mem_rotationRadians,
    tubeGrid_length _ _ _, tubeGrid_ring_length _ _ _,
    ringVectors_norm seed _ (dot_unitVec_self _ hseg) hgs,
    rodrigues_two_pi _ _⟩

/-- Claim C6, witness: the straight segment `(0,0,0) → (0,0,10)` with seed
`(1,0,0)` produces the 10 × 20 grid with all offsets of norm `1/24`. -/
theorem C6_tube_mesh_geometry_witness :
    (tubeGrid ⟨0, 0, 0⟩ ⟨0, 0, 10⟩ ⟨1, 0, 0⟩).length = lenPointCount ∧
    (∀ ring ∈ tubeGrid ⟨0, 0, 0⟩ ⟨0, 0, 10⟩ ⟨1, 0, 0⟩,
      ring.length = circPointCount) ∧
    (∀ w ∈ ringVectors ⟨1, 0, 0⟩ (unitVec (vsub ⟨0, 0, 10⟩ ⟨0, 0, 0⟩)),
      vnorm w = 1 / 24) := by
  have h := C6_tube_mesh_geometry ⟨0, 0, 0⟩ ⟨0, 0, 10⟩ ⟨1, 0, 0⟩
    (by simp [vsub, vzero])
    (by simp [gramSchmidt, unitVec, vsub, smul, dot, vzero])
  exact ⟨h.2.2.1, h.2.2.2.1, h.2.2.2.2.1⟩

/-- Claim C7, counterexample.  The claim says an edge whose endpoint
resolves to no stress record is skipped with a diagnostic and processing
continues.  In `get_stress_plot` the lookup
`np.where(sustained_stresses[:,0] == id)[0][0]` has no surrounding `try`:
with node `20` missing from the stress table the pass raises `IndexError`
and terminates instead of skipping the edge. -/
theorem C7_stress_plot_raises_counterexample :
    stressPlotRun [ strL "10", strL "20" ] [ strL "10" ]
        [ (strL "10", strL "20") ]
      = Except.error (strL "IndexError") := by
  rfl

/-- Claim C7, amended.  In `get_THOR_plot` an edge with an unresolved
endpoint is skipped (the `KeyError` is caught and the loop continues), so
the pass returns exactly the resolvable edges; but in `get_stress_plot` an
endpoint missing from the coordinate table or the stress table raises an
uncaught `IndexError` that terminates the whole pass. -/
theorem C7_edge_resolution_behavior :
    (∀ (α : Type) (dic : List (List Char × α))
      (edges : List (List Char × List Char)),
      thorRun dic edges
        = edges.filter
            (fun e => (dictGet e.1 dic).isSome && (dictGet e.2 dic).isSome)) ∧
    (∀ (coordIds stressIds : List (List Char))
      (edges : List (List Char × List Char)),
      (∃ e ∈ edges,
        firstIndexOf coordIds e.1 = none ∨ firstIndexOf coordIds e.2 = none ∨
        firstIndexOf stressIds (pyStrip e.1) = none ∨
        firstIndexOf stressIds (pyStrip e.2) = none) →
      stressPlotRun coordIds stressIds edges
        = Except.error (strL "IndexError")) := by
  constructor
  · intro α dic edges
    induction edges with
    | nil => rfl
    | cons e rest ih =>
      obtain ⟨a, b⟩ := e
      cases h1 : dictGet a dic with
      | none => simp [thorRun, h1, ih, List.filter_cons]
      | some v =>
        cases h2 : dictGet b dic with
        | none => simp [thorRun, h1, h2, ih, List.filter_cons]
        | some w => simp [thorRun, h1, h2, ih, List.filter_cons]
  · intro coordIds stressIds edges hbad
    induction edges with
    | nil => simp at hbad
    | cons e rest ih =>
      obtain ⟨a, b⟩ := e
      by_cases hc : firstIndexOf coordIds a = none ∨ firstIndexOf coordIds b = none
      · simp only [stressPlotRun]
        rw [if_pos hc]
      · simp only [stressPlotRun]
        rw [if_neg hc]
        push_neg at hc
        obtain ⟨hc1, hc2⟩ := hc
        cases hsa : firstIndexOf stressIds (pyStrip a) with
        | none => rfl
        | some i =>
          cases hsb : firstIndexOf stressIds (pyStrip b) with
          | none => rfl
          | some j =>
            have hrest : ∃ e ∈ rest,
                firstIndexOf coordIds e.1 = none ∨
                firstIndexOf coordIds e.2 = none ∨
                firstIndexOf stressIds (pyStrip e.1) = none ∨
                firstIndexOf stressIds (pyStrip e.2) = none := by
              rcases hbad with ⟨e', he', hb'⟩
              rcases List.mem_cons.mp he' with he0 | hmem
              · exfalso
                subst he0
                rcases hb' with h | h | h | h
                · exact hc1 h
                · exact hc2 h
                · rw [hsa] at h; cases h
                · rw [hsb] at h; cases h
              · exact ⟨e', hmem, hb'⟩
            rw [ih hrest]

/-- Claim C7, witness: a concrete edge whose destination is missing from the
coordinate table makes the stress-plot pass fail with `IndexError`. -/
theorem C7_edge_resolution_behavior_witness :
    stressPlotRun [ strL "10" ] [ strL "10", strL "20" ]
        [ (strL "10", strL "20") ]
      = Except.error (strL "IndexError") :=
  C7_edge_resolution_behavior.2 [ strL "10" ] [ strL "10", strL "20" ]
    [ (strL "10", strL "20") ] (by decide)

/-- Helper: `rstrip` keeps a prefix of the list. -/
theorem pyStripRight_prefixOfSelf (l : List Char) : pyStripRight l <+: l := by
  have h := List.dropWhile_suffix (l := l.reverse) isPySpace
  have h2 := List.reverse_prefix.mpr h
  rw [List.reverse_reverse] at h2
  exact h2

/-- Helper: `dropWhile` of a `takeWhile` is empty. -/
theorem dropWhile_takeWhile_nil (p : Char → Bool) (l : List Char) :
    List.dropWhile p (List.takeWhile p l) = [] := by
  induction l with
  | nil => rfl
  | cons a l ih =>
    by_cases hp : p a = true
    · rw [List.takeWhile_cons, if_pos hp, List.dropWhile_cons, if_pos hp, ih]
    · rw [List.takeWhile_cons, if_neg hp]
      rfl

/-- Helper: the head left by `dropWhile` fails the predicate. -/
theorem dropWhile_head_false (p : Char → Bool) (l : List Char) (c : Char)
    (rest : List Char) (h : List.dropWhile p l = c :: rest) : p c = false := by
  have hh := List.head?_dropWhile_not p l
  rw [h] at hh
  exact hh

/-- Helper: stripping the 6-column prefix of a string whose stripped
8-column form has more than six characters yields a strict prefix of the
stripped 8-column form. -/
theorem strip_take_strict_prefix (l : List Char)
    (h7 : 6 < (pyStrip (List.take 8 l)).length) :
    pyStrip (List.take 6 l) <+: pyStrip (List.take 8 l) ∧
      pyStrip (List.take 6 l) ≠ pyStrip (List.take 8 l) := by
  have h6 : List.take 6 l = List.take 6 (List.take 8 l) := by
    rw [List.take_take]
    norm_num
  set s := List.take 8 l with hs
  rw [h6]
  set sp := List.takeWhile isPySpace s with hsp
  set core := List.dropWhile isPySpace s with hcore
  have hsplit : sp ++ core = s := List.takeWhile_append_dropWhile isPySpace s
  have hstrip_s : pyStrip s = pyStripRight core := by
    unfold pyStrip pyStripLeft
    rw [← hcore]
  have hA := pyStripRight_prefixOfSelf core
  have hlen7 : 7 ≤ (pyStripRight core).length := by
    rw [hstrip_s] at h7
    omega
  have hcorelen : 7 ≤ core.length := le_trans hlen7 hA.length_le
  have hslen : s.length ≤ 8 := by
    rw [hs, List.length_take]
    omega
  have hsplen : sp.length ≤ 1 := by
    have hlensplit := congrArg List.length hsplit
    rw [List.length_append] at hlensplit
    omega
  obtain ⟨k, hk⟩ : ∃ k, 6 - sp.length = k + 1 := ⟨6 - sp.length - 1, by omega⟩
  obtain ⟨c, core', hcc⟩ : ∃ c core', core = c :: core' := by
    cases hc0 : core with
    | nil => rw [hc0] at hcorelen; simp at hcorelen
    | cons c cs => exact ⟨c, cs, rfl⟩
  have hchead : isPySpace c = false := by
    apply dropWhile_head_false isPySpace s c core'
    rw [← hcore]
    exact hcc
  have htake6 : List.take 6 s = sp ++ List.take (6 - sp.length) core := by
    conv_lhs => rw [← hsplit]
    rw [List.take_append_eq_append_take,
      List.take_of_length_le (show sp.length ≤ 6 from by omega)]
  have hAtake : List.take (6 - sp.length) core
      = List.take (6 - sp.length) (pyStripRight core) := by
    obtain ⟨tail, htail⟩ := hA
    conv_lhs => rw [← htail]
    rw [List.take_append_eq_append_take,
      show 6 - sp.length - (pyStripRight core).length = 0 from by omega,
      List.take_zero, List.append_nil]
  have hsl : pyStripLeft (List.take 6 s) = List.take (6 - sp.length) core := by
    rw [htake6]
    unfold pyStripLeft
    rw [List.dropWhile_append]
    have hspdrop : List.dropWhile isPySpace sp = [] := by
      rw [hsp]
      exact dropWhile_takeWhile_nil _ _
    rw [hspdrop]
    simp only [List.isEmpty_nil, if_true]
    rw [hk, hcc, List.take_succ_cons, List.dropWhile_cons,
      if_neg (by simp [hchead])]
  have hform : pyStrip (List.take 6 s)
      = pyStripRight (List.take (6 - sp.length) (pyStripRight core)) := by
    unfold pyStrip
    rw [hsl, hAtake]
  have hlen6 : (pyStrip (List.take 6 s)).length ≤ 6 := by
    rw [hform]
    refine le_trans (pyStripRight_prefixOfSelf _).length_le ?_
    rw [List.length_take]
    omega
  constructor
  · rw [hstrip_s, hform]
    exact (pyStripRight_prefixOfSelf _).trans (List.take_prefix _ _)
  · intro heqq
    have hleq := congrArg List.length heqq
    omega

/-- Claim C10.  A qualifying coordinate row stored without the `" M"`
disambiguation suffix takes its stored node id from columns 0-6 while the
connectivity-membership test used columns 0-8; when the column-0-8 id has
more than six significant characters, the id stored in the coordinate table
(and added, space-free, to the known-coordinate-ids registry) is a strict
truncation (proper prefix) of the id that was tested against the edge set. -/
theorem C10_stored_id_truncation (loadCases : List (List Char))
    (conn : List (List Char × List Char)) (st : NCState) (line : List Char)
    (lc : List Char)
    (hnd : pyContains (strL "NODE DATA") line = false)
    (hed : pyContains (strL "ELEMENT DATA") line = false)
    (hparse : st.parseData = true)
    (hlc : st.currentLoadCase = some lc)
    (hnum : isNumericStr (removeAll ' '
      (removeAll '.' (removeAll '-' (pySlice 34 61 line)))) = true)
    (hbranch : ¬ (pyStrip (pySlice 0 8 line) ∉ conn.map Prod.fst ∧
        pyStrip (pySlice 0 8 line) ∉ conn.map Prod.snd ∧
        ((pyStrip (pySlice 0 8 line) ++ strL " M") ∈ conn.map Prod.fst ∨
          (pyStrip (pySlice 0 8 line) ++ strL " M") ∈ conn.map Prod.snd)))
    (hsig : 6 < (pyStrip (pySlice 0 8 line)).length) :
    (ncStep loadCases conn st line).geo
        = dictAppendRow lc
            (pyStrip (pySlice 0 6 line),
              pySlice 33 39 line, pySlice 44 50 line, pySlice 55 61 line)
            st.geo ∧
      (ncStep loadCases conn st line).allCoordinateIds
        = st.allCoordinateIds ++ [ removeAll ' ' (pyStrip (pySlice 0 6 line)) ] ∧
      pyStrip (pySlice 0 6 line) <+: pyStrip (pySlice 0 8 line) ∧
      pyStrip (pySlice 0 6 line) ≠ pyStrip (pySlice 0 8 line) := by
  have hps : ∀ n, pySlice 0 n line = List.take n line := fun n => by
    simp [pySlice]
  have hsig' : 6 < (pyStrip (List.take 8 line)).length := by
    rw [← hps 8]
    exact hsig
  have hmain := strip_take_strict_prefix line hsig'
  have h1 : ncNodeData loadCases st line = st := by
    unfold ncNodeData
    rw [if_neg (by simp [hnd])]
  have h2 : ncElementData st line = st := by
    unfold ncElementData
    rw [if_neg (by simp [hed])]
  have h3 : ncCoordRow conn st line
      = { st with
          geo := dictAppendRow (st.currentLoadCase.getD [])
            (pyStrip (pySlice 0 6 line),
              pySlice 33 39 line, pySlice 44 50 line, pySlice 55 61 line)
            st.geo,
          allCoordinateIds :=
            st.allCoordinateIds
              ++ [ removeAll ' ' (pyStrip (pySlice 0 6 line)) ] } := by
    unfold ncCoordRow
    rw [if_pos ⟨hparse, hnum, by rw [hlc]; simp⟩, if_neg hbranch]
  refine ⟨?_, ?_, ?_, ?_⟩
  · rw [ncStep, h1, h2, h3, hlc]
    rfl
  · rw [ncStep, h1, h2, h3]
  · rw [hps 6, hps 8]
    exact hmain.1
  · rw [hps 6, hps 8]
    exact hmain.2

/-- Claim C10, witness: on the fixture row the stored id is `"123456"`, a
strict truncation of the tested id `"1234567"`. -/
theorem C10_stored_id_truncation_witness :
    (ncStep [ strL "WTDW" ] [ (strL "1234567", strL "20") ]
        ⟨true, some (strL "WTDW"), [], []⟩ ncFixtureLine).geo
        = dictAppendRow (strL "WTDW")
            (pyStrip (pySlice 0 6 ncFixtureLine),
              pySlice 33 39 ncFixtureLine, pySlice 44 50 ncFixtureLine,
              pySlice 55 61 ncFixtureLine) [] ∧
      (ncStep [ strL "WTDW" ] [ (strL "1234567", strL "20") ]
        ⟨true, some (strL "WTDW"), [], []⟩ ncFixtureLine).allCoordinateIds
        = [] ++ [ removeAll ' ' (pyStrip (pySlice 0 6 ncFixtureLine)) ] ∧
      pyStrip (pySlice 0 6 ncFixtureLine) <+: pyStrip (pySlice 0 8 ncFixtureLine) ∧
      pyStrip (pySlice 0 6 ncFixtureLine) ≠ pyStrip (pySlice 0 8 ncFixtureLine) :=
  C10_stored_id_truncation [ strL "WTDW" ] [ (strL "1234567", strL "20") ]
    ⟨true, some (strL "WTDW"), [], []⟩ ncFixtureLine (strL "WTDW")
    (by decide) (by decide) (by decide) (by decide) (by decide) (by decide)
    (by decide)

/-- Claim C2, counterexample.  On the second card the two freshly created
entries (`30` and `40`) exist and are still missing `OD`, and the parser is
past the single-start state — the claim says the value should then be copied
from the third-most-recent entry's map (entry `20`, whose `OD` is `"1.0"`).
The code instead assigns the value parsed from the current line (`"2.0"`):
the `elif` chain makes the inheritance branch unreachable. -/
theorem C2_inheritance_counterexample :
    (geoRun [ geoFixtureStart, geoFixtureCard1, geoFixtureCard2 ]).entries
        = [ (strL "10", [ (strL "OD", strL "1.0") ]),
            (strL "20", [ (strL "OD", strL "1.0") ]),
            (strL "30", [ (strL "OD", strL "2.0") ]),
            (strL "40", [ (strL "OD", strL "2.0") ]) ] ∧
      dictGet (strL "OD")
          (((geoRun [ geoFixtureStart, geoFixtureCard1, geoFixtureCard2 ]).entries.getLastD
            ([], [])).2)
        ≠ some (strL "1.0") :=
  ⟨by decide, by decide⟩

/-- Helper: the `if/elif/elif` chain can never reach the inheritance branch:
its guard requires `first_single_node_in_this_line == False`, but that case
is already consumed by the second branch. -/
theorem geoKeywordAssign_eq_noInherit (fs : Option Bool) (es : List GeoEntry)
    (line kw : List Char) :
    geoKeywordAssign fs es line kw = geoKeywordAssignNoInherit fs es line kw := by
  unfold geoKeywordAssign geoKeywordAssignNoInherit
  rcases fs with _ | b
  · simp
  · cases b <;> simp

/-- Claim C2, amended.  The inheritance fallback is dead code: for every
parser state and every line, the geometry step behaves identically with the
third `elif` (source lines 364-378) deleted.  In particular a recognized
keyword's value is always the one parsed from the current line — it is never
copied forward from the third-most-recent entry's parameter map (and hence
the claimed copy-forward, with its logged skip on missing data, never
executes at all). -/
theorem C2_inheritance_branch_is_dead (st : GeoState) (line : List Char) :
    geoStep st line = geoStepNoInherit st line := by
  unfold geoStep geoStepNoInherit
  simp only [geoKeywordAssign_eq_noInherit]

/-- Helper: every catalog key is nonempty, `=`-free and strip-invariant. -/
theorem catalog_keys_ok :
    ∀ K ∈ coversheetParameterList ++ coversheetSetList ++ longTextParameterList,
      keyOk K = true := by decide

/-- Helper: single-value keys are in no other catalog. -/
theorem single_keys_disjoint :
    ∀ K ∈ coversheetParameterList,
      K ∉ coversheetSetList ∧ K ∉ longTextParameterList := by decide

/-- Helper: repeatable keys are in no other catalog. -/
theorem set_keys_disjoint :
    ∀ K ∈ coversheetSetList,
      K ∉ coversheetParameterList ∧ K ∉ longTextParameterList := by decide

/-- Helper: multi-line keys are in no other catalog. -/
theorem long_keys_disjoint :
    ∀ K ∈ longTextParameterList,
      K ∉ coversheetParameterList ∧ K ∉ coversheetSetList := by decide

/-- Helper: unpacking `keyOk`. -/
theorem keyOk_props (K : List Char) (h : keyOk K = true) :
    K ≠ [] ∧ '=' ∉ K ∧ pyStripLeft K = K ∧ pyStripRight K = K := by
  simp only [keyOk, Bool.and_eq_true, beq_iff_eq, Bool.not_eq_true',
    List.all_eq_true] at h
  obtain ⟨⟨⟨h1, h2⟩, h3⟩, h4⟩ := h
  refine ⟨?_, ?_, h3, h4⟩
  · intro hK
    subst hK
    simp at h1
  · intro hm
    have := h2 '=' hm
    simp at this

/-- Helper: reading back a freshly set key. -/
theorem dictGet_dictSet_self {α : Type} (k : List Char) (v : α) :
    ∀ d, dictGet k (dictSet k v d) = some v
  | [] => by simp [dictSet, dictGet]
  | (k', v') :: d => by
    by_cases h : k' = k
    · simp [dictSet, dictGet, h]
    · simp [dictSet, dictGet, h, dictGet_dictSet_self k v d]

/-- Helper: the parsed key of a well-formed comment line is the key. -/
theorem commentLine_key (K V : List Char) (hne : K ≠ []) (heq : '=' ∉ K)
    (hsl : pyStripLeft K = K) (hsr : pyStripRight K = K) :
    commentKeyOf (commentLine K V) = K := by
  unfold commentKeyOf
  rw [commentLine_find_marker, commentLine_find_eq K V heq,
    show (0 : Int) + 4 = ((4 : Nat) : Int) from by norm_num,
    pySliceI_coe 4 (4 + (K.length + 1)) _ (by omega)
      (by rw [commentLine_length]; omega),
    commentLine_name_slice]
  exact pyStrip_key_space K hsl hsr hne

/-- Helper: the parsed value of a well-formed comment line is a space
followed by the value and the newline. -/
theorem commentLine_value (K V : List Char) (heq : '=' ∉ K) :
    commentValueOf (commentLine K V) = ' ' :: (V ++ [ '\n' ]) := by
  unfold commentValueOf
  rw [commentLine_find_eq K V heq,
    show ((4 + (K.length + 1) : Nat) : Int) + 1
      = ((4 + (K.length + 1) + 1 : Nat) : Int) from by push_cast; ring,
    pySliceI_coe _ _ _ (by rw [commentLine_length]; omega) (le_refl _),
    commentLine_value_slice]

/-- Helper: the stored value strips back to the stripped raw value. -/
theorem value_strip (V : List Char) :
    pyStrip (' ' :: (V ++ [ '\n' ])) = pyStrip V := by
  rw [pyStrip_cons_space, pyStrip_append_newline]

/-- Helper: the multi-line fragment of a newline-free value. -/
theorem value_fragment (V : List Char) (hV : '\n' ∉ V) :
    removeAll '\n' (' ' :: (V ++ [ '\n' ])) = ' ' :: V := by
  have hfV : List.filter (fun d => d ≠ '\n') V = V :=
    List.filter_eq_self.mpr (fun a ha =>
      decide_eq_true (fun e => hV (e ▸ ha)))
  simp [removeAll, List.filter_cons, List.filter_append, hfV]
  exact fun a ha e => hV (e ▸ ha)

/-- Helper: the step dispatches on the marker. -/
theorem coversheetStep_of_contains (dic : List (List Char × PVal))
    (line : List Char) (hc : pyContains (strL "***/") line = true) :
    coversheetStep dic line
      = coversheetApply dic (commentKeyOf line) (commentValueOf line) := by
  unfold coversheetStep
  rw [hc]
  rfl

/-- Helper: `applySingle` on a single-value key. -/
theorem applySingle_pos (dic : List (List Char × PVal)) (key value : List Char)
    (h : key ∈ coversheetParameterList) :
    applySingle dic key value = dictSet key (.s (pyStrip value)) dic := by
  unfold applySingle
  rw [if_pos h]

/-- Helper: `applySingle` on any other key. -/
theorem applySingle_neg (dic : List (List Char × PVal)) (key value : List Char)
    (h : key ∉ coversheetParameterList) : applySingle dic key value = dic := by
  unfold applySingle
  rw [if_neg h]

/-- Helper: `applySet` first sight of a repeatable key. -/
theorem applySet_pos_none (dic : List (List Char × PVal)) (key value : List Char)
    (h : key ∈ coversheetSetList) (hget : dictGet key dic = none) :
    applySet dic key value = dictSet key (.lst [ pyStrip value ]) dic := by
  unfold applySet
  rw [if_pos h, hget]

/-- Helper: `applySet` appending to an existing list. -/
theorem applySet_pos_lst (dic : List (List Char × PVal)) (key value : List Char)
    (vs : List (List Char)) (h : key ∈ coversheetSetList)
    (hget : dictGet key dic = some (.lst vs)) :
    applySet dic key value = dictSet key (.lst (vs ++ [ pyStrip value ])) dic := by
  unfold applySet
  rw [if_pos h, hget]

/-- Helper: `applySet` on any other key. -/
theorem applySet_neg (dic : List (List Char × PVal)) (key value : List Char)
    (h : key ∉ coversheetSetList) : applySet dic key value = dic := by
  unfold applySet
  rw [if_neg h]

/-- Helper: `applyLong` first sight of a multi-line key. -/
theorem applyLong_pos_none (dic : List (List Char × PVal)) (key value : List Char)
    (h : key ∈ longTextParameterList) (hget : dictGet key dic = none) :
    applyLong dic key value = dictSet key (.txt (removeAll '\n' value)) dic := by
  unfold applyLong
  rw [if_pos h, hget]

/-- Helper: `applyLong` concatenating to an existing blob. -/
theorem applyLong_pos_txt (dic : List (List Char × PVal)) (key value t : List Char)
    (h : key ∈ longTextParameterList) (hget : dictGet key dic = some (.txt t)) :
    applyLong dic key value
      = dictSet key (.txt (t ++ removeAll '\n' value)) dic := by
  unfold applyLong
  rw [if_pos h, hget]

/-- Helper: `applyLong` on any other key. -/
theorem applyLong_neg (dic : List (List Char × PVal)) (key value : List Char)
    (h : key ∉ longTextParameterList) : applyLong dic key value = dic := by
  unfold applyLong
  rw [if_neg h]

/-- Claim C5.  For every comment line of the form `***/KEY = VALUE` (with
the newline Python keeps), the step stores `VALUE` recoverably: a
single-value key holds the stripped value; a repeatable key appends the
stripped value as a new list element; a multi-line key appends a fragment
equal to `VALUE` modulo surrounding whitespace; and a key in no catalog
leaves the parameter map unchanged. -/
theorem C5_comment_parameter_round_trip (dic : List (List Char × PVal))
    (K V : List Char) (hV : '\n' ∉ V) :
    (K ∈ coversheetParameterList →
      dictGet K (coversheetStep dic (commentLine K V))
        = some (.s (pyStrip V))) ∧
    (K ∈ coversheetSetList →
      (dictGet K dic = none →
        dictGet K (coversheetStep dic (commentLine K V))
          = some (.lst [ pyStrip V ])) ∧
      ∀ vs, dictGet K dic = some (.lst vs) →
        dictGet K (coversheetStep dic (commentLine K V))
          = some (.lst (vs ++ [ pyStrip V ]))) ∧
    (K ∈ longTextParameterList →
      (dictGet K dic = none →
        dictGet K (coversheetStep dic (commentLine K V))
          = some (.txt (' ' :: V))) ∧
      (∀ t, dictGet K dic = some (.txt t) →
        dictGet K (coversheetStep dic (commentLine K V))
          = some (.txt (t ++ ' ' :: V))) ∧
      pyStrip (' ' :: V) = pyStrip V) ∧
    (K ≠ [] → '=' ∉ K → pyStripLeft K = K → pyStripRight K = K →
      K ∉ coversheetParameterList → K ∉ coversheetSetList →
      K ∉ longTextParameterList →
      coversheetStep dic (commentLine K V) = dic) := by
  refine ⟨?_, ?_, ?_, ?_⟩
  · intro hK
    obtain ⟨hne, heq, hsl, hsr⟩ := keyOk_props K (catalog_keys_ok K (by simp [hK]))
    obtain ⟨hns, hnl⟩ := single_keys_disjoint K hK
    rw [coversheetStep_of_contains dic _ (commentLine_contains_marker K V),
      commentLine_key K V hne heq hsl hsr, commentLine_value K V heq,
      coversheetApply, applySingle_pos _ _ _ hK, applySet_neg _ _ _ hns,
      applyLong_neg _ _ _ hnl, dictGet_dictSet_self, value_strip]
  · intro hK
    obtain ⟨hne, heq, hsl, hsr⟩ := keyOk_props K (catalog_keys_ok K (by simp [hK]))
    obtain ⟨hns, hnl⟩ := set_keys_disjoint K hK
    constructor
    · intro hget
      rw [coversheetStep_of_contains dic _ (commentLine_contains_marker K V),
        commentLine_key K V hne heq hsl hsr, commentLine_value K V heq,
        coversheetApply, applySingle_neg _ _ _ hns,
        applySet_pos_none _ _ _ hK hget, applyLong_neg _ _ _ hnl,
        dictGet_dictSet_self, value_strip]
    · intro vs hget
      rw [coversheetStep_of_contains dic _ (commentLine_contains_marker K V),
        commentLine_key K V hne heq hsl hsr, commentLine_value K V heq,
        coversheetApply, applySingle_neg _ _ _ hns,
        applySet_pos_lst _ _ _ vs hK hget, applyLong_neg _ _ _ hnl,
        dictGet_dictSet_self, value_strip]
  · intro hK
    obtain ⟨hne, heq, hsl, hsr⟩ := keyOk_props K (catalog_keys_ok K (by simp [hK]))
    obtain ⟨hnsingle, hnset⟩ := long_keys_disjoint K hK
    refine ⟨?_, ?_, pyStrip_cons_space V⟩
    · intro hget
      rw [coversheetStep_of_contains dic _ (commentLine_contains_marker K V),
        commentLine_key K V hne heq hsl hsr, commentLine_value K V heq,
        coversheetApply, applySingle_neg _ _ _ hnsingle, applySet_neg _ _ _ hnset,
        applyLong_pos_none _ _ _ hK hget, dictGet_dictSet_self,
        value_fragment V hV]
    · intro t hget
      rw [coversheetStep_of_contains dic _ (commentLine_contains_marker K V),
        commentLine_key K V hne heq hsl hsr, commentLine_value K V heq,
        coversheetApply, applySingle_neg _ _ _ hnsingle, applySet_neg _ _ _ hnset,
        applyLong_pos_txt _ _ _ t hK hget, dictGet_dictSet_self,
        value_fragment V hV]
  · intro hne heq hsl hsr hn1 hn2 hn3
    rw [coversheetStep_of_contains dic _ (commentLine_contains_marker K V),
      commentLine_key K V hne heq hsl hsr, commentLine_value K V heq,
      coversheetApply, applySingle_neg _ _ _ hn1, applySet_neg _ _ _ hn2,
      applyLong_neg _ _ _ hn3]

/-- Claim C5, witness: the `STATION` key round-trips a concrete value. -/
theorem C5_comment_parameter_round_trip_witness :
    dictGet (strL "STATION")
        (coversheetStep [] (commentLine (strL "STATION") (strL "UNIT 7")))
      = some (.s (pyStrip (strL "UNIT 7"))) :=
  (C5_comment_parameter_round_trip [] (strL "STATION") (strL "UNIT 7")
    (by decide)).1 (by decide)

/-- Helper: the maximum of the all-within ratio fixture. -/
theorem maxOfList_point_nine : maxOfList [ (0.2 : ℚ), 0.5, 0.9 ] = 0.9 := by
  norm_num [maxOfList, List.foldl, max_def]

/-- Helper: the maximum of the exceeded ratio fixture. -/
theorem maxOfList_one_point_one : maxOfList [ (0.2 : ℚ), 1.1, 0.5 ] = 1.1 := by
  norm_num [maxOfList, List.foldl, max_def]

/-- Helper: `f"{1.1:.3f}"` is `"1.100"`. -/
theorem formatFixed3_one_point_one : formatFixed3 (1.1 : ℚ) = strL "1.100" := by
  have hfloor : Int.floor ((1.1 : ℚ) * 1000 + 1 / 2) = 1100 := by
    rw [Int.floor_eq_iff]
    constructor <;> norm_num
  simp only [formatFixed3, hfloor]
  decide

/-- Helper: a line whose ratio column fails the float conversion contributes
nothing to the ratio list, wherever it sits. -/
theorem stressRatiosOf_skips (bad : List Char)
    (hbad : pyFloat? (ratioOfLine bad) = none) :
    ∀ (pre post : List (List Char)),
      stressRatiosOf (pre ++ bad :: post) = stressRatiosOf (pre ++ post)
  | [], post => by simp [stressRatiosOf, hbad]
  | l :: pre, post => by
    have ih := stressRatiosOf_skips bad hbad pre post
    simp only [List.cons_append, stressRatiosOf, List.append_eq] at ih ⊢
    rw [ih]

/-- Claim C4.  Classification of the extracted stress-ratio list: the list
`[0.2, 0.5, 0.9]` (all below 1.0) yields the all-within-allowable message;
`[0.2, 1.1, 0.5]` yields the exceeded message reporting the maximum as
`1.100`, and the maximum is indeed `1.1`; and a line whose ratio column
fails numeric conversion is dropped from the ratio list (the `ValueError`
is caught locally) rather than raising. -/
theorem C4_stress_ratio_summary_behavior :
    summaryText [ (0.2 : ℚ), 0.5, 0.9 ] = msgAllWithin ∧
    summaryText [ (0.2 : ℚ), 1.1, 0.5 ]
        = msgExceededPrefix ++ strL "1.100" ++ [ '.' ] ∧
    maxOfList [ (0.2 : ℚ), 1.1, 0.5 ] = 1.1 ∧
    ∀ (pre post : List (List Char)) (bad : List Char),
      pyFloat? (ratioOfLine bad) = none →
      stressRatiosOf (pre ++ bad :: post) = stressRatiosOf (pre ++ post) := by
  refine ⟨?_, ?_, maxOfList_one_point_one, ?_⟩
  · have h9 : ((0.9 : ℚ) < 1) := by norm_num
    simp [summaryText, maxOfList_point_nine, h9]
  · have h11 : ¬ ((1.1 : ℚ) < 1) := by norm_num
    simp [summaryText, maxOfList_one_point_one, h11, formatFixed3_one_point_one]
  · intro pre post bad hbad
    exact stressRatiosOf_skips bad hbad pre post

/-- Claim C4, witness: a concrete non-numeric ratio line is dropped. -/
theorem C4_stress_ratio_summary_behavior_witness :
    stressRatiosOf ([] ++ badRatioLine :: []) = stressRatiosOf ([] ++ []) :=
  C4_stress_ratio_summary_behavior.2.2.2 [] [] badRatioLine (by decide)

/-- Helper: a line without the stress-analysis marker leaves the recorded
stress boundary unchanged. -/
theorem scanSectionsStep_stress (b : SectionBounds) (i : Nat) (l : List Char)
    (h : pyContains stressAnalysisKeyword l = false) :
    (scanSectionsStep b i l).stressAnalysis = b.stressAnalysis := by
  simp only [scanSectionsStep, h, Bool.false_eq_true, if_false]
  split_ifs <;> rfl

/-- Helper: the whole scan keeps the stress boundary unset when the marker
never occurs. -/
theorem scanSectionsGo_stress (lines : List (List Char)) :
    ∀ (i : Nat) (b : SectionBounds),
      (∀ l ∈ lines, pyContains stressAnalysisKeyword l = false) →
      (scanSectionsGo i b lines).stressAnalysis = b.stressAnalysis := by
  induction lines with
  | nil => intro i b _; rfl
  | cons l rest ih =>
    intro i b h
    simp only [scanSectionsGo]
    rw [ih (i + 1) _ (fun x hx => h x (List.mem_cons_of_mem l hx))]
    exact scanSectionsStep_stress b i l (h l (List.mem_cons_self l rest))

/-- Claim C8, counterexample.  The claim says every stage depending on a
section boundary returns normally with an explicit empty result when the
marker is absent.  But `get_node_connectivities` reads
`self.stress_analysis_line_number` (source line 477) without any check, and
that attribute is only ever assigned when the marker is found (source line
211), so on a file without the `"ALL     STRESS ANALYSIS"` marker the method
raises `AttributeError` instead of returning an empty result. -/
theorem C8_missing_marker_raises_counterexample :
    (scanSections [ strL "hello\n", strL "world\n" ]).stressAnalysis = none ∧
    getNodeConnectivities
        (scanSections [ strL "hello\n", strL "world\n" ]).stressAnalysis
        [ strL "hello\n", strL "world\n" ]
      = Except.error (strL "AttributeError") :=
  ⟨by decide, by rfl⟩

/-- Claim C8, amended.  When the stress-analysis marker never occurs the
boundary stays unset; `parse_pipe_stress_summary` checks its boundaries and
returns normally with explicit empty/error placeholder values, but
`get_node_connectivities` performs no such check and raises
`AttributeError` out of the pipeline. -/
theorem C8_missing_section_behavior (lines rawData : List (List Char))
    (hnone : ∀ l ∈ lines, pyContains stressAnalysisKeyword l = false) :
    (scanSections lines).stressAnalysis = none ∧
    getNodeConnectivities none rawData = Except.error (strL "AttributeError") ∧
    parsePipeStressSummary none none rawData
      = ⟨[ strL "Error: Pipe stress summary not found in output file." ],
          strL "Error: Pipe stress summary not found.", []⟩ :=
  ⟨scanSectionsGo_stress lines 0 ⟨none, none, none⟩ hnone, rfl, rfl⟩

/-- Claim C8, witness. -/
theorem C8_missing_section_behavior_witness :
    (scanSections [ strL "no markers here\n" ]).stressAnalysis = none ∧
    getNodeConnectivities none [ strL "no markers here\n" ]
        = Except.error (strL "AttributeError") ∧
    parsePipeStressSummary none none [ strL "no markers here\n" ]
      = ⟨[ strL "Error: Pipe stress summary not found in output file." ],
          strL "Error: Pipe stress summary not found.", []⟩ :=
  C8_missing_section_behavior [ strL "no markers here\n" ]
    [ strL "no markers here\n" ] (by decide)

/-- Claim C3, counterexample.  The claim says the load-case list is
duplicate-free for every input.  Two declaration lines naming the same load
case `WTDW` yield the list `["WTDW", "WTDW"]`, which is not duplicate-free:
`parse_load_cases` appends unconditionally (source line 419). -/
theorem C3_duplicate_load_case_counterexample :
    (parseLoadCases 20 [ strL "  LDCASE=WTDW(1)\n", strL "  LDCASE=WTDW(1)\n" ]).1
        = [ strL "WTDW", strL "WTDW" ] ∧
      ¬ (parseLoadCases 20
          [ strL "  LDCASE=WTDW(1)\n", strL "  LDCASE=WTDW(1)\n" ]).1.Nodup := by
  exact ⟨by decide, by decide⟩

/-- Claim C3, amended.  The load-case list produced by scanning is the list of
names of the `LDCASE=` declaration lines among the lines the scan consumed, in
the order those lines are encountered — one entry per declaration line, so a
name that is declared twice appears twice (the code never deduplicates). -/
theorem C3_load_case_list_in_order (maxBlank : Int) (lines : List (List Char)) :
    (parseLoadCases maxBlank lines).1 =
      ((lines.take (parseLoadCases maxBlank lines).2).filter
        (fun l => pyContains ldcaseKeyword l)).map extractLoadCaseName :=
  loadCasesGo_filter_map maxBlank lines false 0

/-- Claim C9.  The consecutive-miss counter is incremented only in the
`elif loading_loadcases` branch, and `loading_loadcases` becomes true only
when a declaration has been seen; hence on a file with no `LDCASE=` line and
a nonnegative threshold, the scan consumes every line and returns the empty
list. -/
theorem C9_no_declaration_scans_every_line (maxBlank : Int)
    (lines : List (List Char)) (hmax : 0 ≤ maxBlank)
    (hnone : ∀ l ∈ lines, pyContains ldcaseKeyword l = false) :
    parseLoadCases maxBlank lines = ([], lines.length) := by
  unfold parseLoadCases
  have h1 : ¬ ((0 : Int) > maxBlank) := not_lt.mpr hmax
  induction lines with
  | nil => simp [loadCasesGo]
  | cons l rest ih =>
    have h2 : pyContains ldcaseKeyword l = false := hnone l (List.mem_cons_self l rest)
    have ih' : loadCasesGo maxBlank rest false 0 = ([], rest.length) :=
      ih (fun x hx => hnone x (List.mem_cons_of_mem l hx))
    simp [loadCasesGo, h1, h2, ih']

/-- Claim C9, witness: a two-line file with no declaration is scanned fully. -/
theorem C9_no_declaration_scans_every_line_witness :
    parseLoadCases 20 [ strL "no load cases here\n", strL "  \n" ] = ([], 2) :=
  C9_no_declaration_scans_every_line 20
    [ strL "no load cases here\n", strL "  \n" ] (by decide) (by decide)

end NDAS
